import Mathlib

/-!
Shallow embedding of the Acquire rules engine (`src/logic` of the repository)
in Lean 4, together with theorems settling the frozen claims about it.

Modelling conventions:
* Rust `usize`/`u32` values are modelled as `Nat`; `usize` wraparound from
  `overflowing_sub` is reproduced explicitly with `USIZE_MAX` where the code
  relies on it (neighbour lookups off the left/top edge of the board).
* Fallible Rust functions returning `Result<_, String>` are modelled with the
  `Outc` outcome type; Rust panics (`assert!`, `panic!`, out-of-bounds
  indexing on data used by the game logic, `unwrap`) are modelled as the
  `Outc.panicked` outcome.
* The `message_callback` channel is write-only logging; it is dropped from the
  model (player-name lookups performed solely to format a log message are
  omitted with it).
* The random tile draw (`rand::thread_rng` + `IteratorRandom::choose`) is
  modelled by an injected function `choose : List Tile → Option Tile`;
  theorems quantify over every such function.
* `acquire_constants.rs` is not part of the provided sources; the constants it
  exports are modelled from the spec (see `MAX_STOCK_PER_HOTEL`,
  `STOCK_TO_BUY_PER_TURN`).
-/

/-- `usize::MAX` on a 64-bit target, used to model `usize::overflowing_sub`. -/
def USIZE_MAX : Nat := 2 ^ 64 - 1

/-- Outcome of a Rust call on the engine: `Ok`, `Err(msg)`, or a panic. -/
inductive Outc (α : Type) where
  | ok (a : α)
  | invalid (msg : String)
  | panicked
deriving DecidableEq

/-- True exactly on `Outc.invalid` (a returned `Err`). -/
def Outc.isInvalid : Outc α → Bool
  | .invalid _ => true
  | _ => false

/-- True exactly on `Outc.ok`. -/
def Outc.isOkOutc : Outc α → Bool
  | .ok _ => true
  | _ => false

/-! ## hotel_data.rs -/

/-- The seven hotel chains (`enum Hotel` in `hotel_data.rs`). -/
inductive Hotel where
  | Tower
  | Luxor
  | American
  | Worldwide
  | Festival
  | Imperial
  | Continental
deriving DecidableEq, Fintype

namespace Hotel

/-- `Hotel::count()`. -/
def count : Nat := 7

/-- `Hotel::iter()` (the order of `HotelIter`). -/
def iterList : List Hotel :=
  [Tower, Luxor, American, Worldwide, Festival, Imperial, Continental]

/-- `get_hotel_row_advantage`. -/
def get_hotel_row_advantage : Hotel → Nat
  | Tower | Luxor => 0
  | American | Worldwide | Festival => 1
  | Imperial | Continental => 2

/-- `get_row_from_chain_length`: the Rust `match` on size ranges
`0..=2 | 3 | 4 | 5 | 6..=10 | 11..=20 | 21..=30 | 31..=40 | _`. -/
def get_row_from_chain_length (h : Hotel) (chain_length : Nat) : Nat :=
  let base_row : Nat :=
    if chain_length ≤ 2 then 0
    else if chain_length = 3 then 1
    else if chain_length = 4 then 2
    else if chain_length = 5 then 3
    else if chain_length ≤ 10 then 4
    else if chain_length ≤ 20 then 5
    else if chain_length ≤ 30 then 6
    else if chain_length ≤ 40 then 7
    else 8
  base_row + h.get_hotel_row_advantage

/-- `get_stock_value`. -/
def get_stock_value (h : Hotel) (chain_length : Nat) : Nat :=
  (h.get_row_from_chain_length chain_length + 2) * 100

/-- `get_majority_holder_bonus`. -/
def get_majority_holder_bonus (h : Hotel) (chain_length : Nat) : Nat :=
  h.get_stock_value chain_length * 10

/-- `get_minority_holder_bonus`. -/
def get_minority_holder_bonus (h : Hotel) (chain_length : Nat) : Nat :=
  h.get_stock_value chain_length * 5

/-- The `Display` impl for `Hotel`. -/
def displayName : Hotel → String
  | Festival => "Festival"
  | Continental => "Continental"
  | Worldwide => "Worldwide"
  | Tower => "Tower"
  | American => "American"
  | Imperial => "Imperial"
  | Luxor => "Luxor"

end Hotel

/-! ## tile.rs -/

/-- `struct Tile` (row, col). -/
structure Tile where
  row : Nat
  col : Nat
deriving DecidableEq

/-- The `Ord` impl for `Tile`: column-major, then row; `a.gtTile b` is
`a > b` in Rust. -/
def Tile.gtTile (a b : Tile) : Bool :=
  decide (b.col < a.col ∨ (a.col = b.col ∧ b.row < a.row))

/-! ## game_board.rs: types -/

def BOARD_ROWS : Nat := 9
def BOARD_COLS : Nat := 12
def SAFE_CHAIN_SIZE : Nat := 11

/-- `enum CellConflictType`. -/
inductive CellConflictType where
  | NewChain
  | Merge (n : Nat)
deriving DecidableEq

/-- `enum Cell`. -/
inductive Cell where
  | Empty
  | Independent
  | Conflict (t : CellConflictType)
  | Hotel (h : Hotel)
deriving DecidableEq

/-- `enum CellNotPlayableReason`. -/
inductive CellNotPlayableReason where
  | ConflictOnBoard
  | HotelsAreAllActive
  | AdjacentHotelsAreSafe
  | CellIsNotEmpty
  | CellIsOffBoard
deriving DecidableEq

/-- `CellNotPlayableReason::as_display_message`. -/
def CellNotPlayableReason.as_display_message : CellNotPlayableReason → String
  | ConflictOnBoard => "There is a conflict on the board"
  | HotelsAreAllActive => "All hotels are currently active, cannot start a new chain"
  | AdjacentHotelsAreSafe => "Adjacent hotels are safe and cannot be merged"
  | CellIsNotEmpty => "The cell is not empty"
  | CellIsOffBoard => "The cell is off the board"

/-- `enum PlaceTileResult`. -/
inductive PlaceTileResult where
  | Success
  | CellNotPlayable (r : CellNotPlayableReason)
  | ConflictCreated (t : CellConflictType)
deriving DecidableEq

/-- `struct GameBoard`: the 9×12 cell array. -/
structure GameBoard where
  cells : Fin BOARD_ROWS → Fin BOARD_COLS → Cell
deriving DecidableEq

/-- All in-bounds coordinates, in the row-major order of the Rust
`for row … for col …` loops. -/
def boardCoords : List (Nat × Nat) :=
  (List.range BOARD_ROWS).flatMap fun row => (List.range BOARD_COLS).map fun col => (row, col)

namespace GameBoard

/-- `GameBoard::new()`. -/
def new : GameBoard := ⟨fun _ _ => Cell.Empty⟩

/-- `get_cell_state`: bounds-checked read, `Empty` off the board. -/
def get_cell_state (b : GameBoard) (row col : Nat) : Cell :=
  if h : row < BOARD_ROWS ∧ col < BOARD_COLS then b.cells ⟨row, h.1⟩ ⟨col, h.2⟩ else Cell.Empty

/-- An unchecked `self.cells[row][col] = v` write.  Every write reached by the
game logic is provably in bounds (the out-of-bounds case, a Rust panic, is
modelled as a no-op here and guarded by an explicit bounds check at the one
call site that needs it, `place_initial_tile`). -/
def setCell (b : GameBoard) (row col : Nat) (v : Cell) : GameBoard :=
  if h : row < BOARD_ROWS ∧ col < BOARD_COLS then
    ⟨fun r c => if r = (⟨row, h.1⟩ : Fin BOARD_ROWS) ∧ c = (⟨col, h.2⟩ : Fin BOARD_COLS)
                then v else b.cells r c⟩
  else b

/-- `get_active_hotels`: the hotels with at least one cell, in `Hotel::iter`
order. -/
def get_active_hotels (b : GameBoard) : List Hotel :=
  Hotel.iterList.filter fun h =>
    boardCoords.any fun rc => decide (b.get_cell_state rc.1 rc.2 = Cell.Hotel h)

/-- `get_inactive_hotels`. -/
def get_inactive_hotels (b : GameBoard) : List Hotel :=
  Hotel.iterList.filter fun h => decide (h ∉ b.get_active_hotels)

/-- `get_hotel_chain_size`. -/
def get_hotel_chain_size (b : GameBoard) (h : Hotel) : Nat :=
  (boardCoords.filter fun rc => decide (b.get_cell_state rc.1 rc.2 = Cell.Hotel h)).length

/-- Neighbour coordinate to the left (`col.overflowing_sub(1)`). -/
def leftOf (col : Nat) : Nat := if col = 0 then USIZE_MAX else col - 1

/-- Neighbour coordinate above (`row.overflowing_sub(1)`). -/
def upOf (row : Nat) : Nat := if row = 0 then USIZE_MAX else row - 1

/-- `get_adjacent_hotels`: the distinct hotels in the four neighbour cells, in
`Hotel::iter` order. -/
def get_adjacent_hotels (b : GameBoard) (row col : Nat) : List Hotel :=
  Hotel.iterList.filter fun h =>
    decide (b.get_cell_state row (col + 1) = Cell.Hotel h ∨
            b.get_cell_state row (leftOf col) = Cell.Hotel h ∨
            b.get_cell_state (row + 1) col = Cell.Hotel h ∨
            b.get_cell_state (upOf row) col = Cell.Hotel h)

/-- `is_cell_next_to_independent`. -/
def is_cell_next_to_independent (b : GameBoard) (row col : Nat) : Bool :=
  decide (b.get_cell_state row (col + 1) = Cell.Independent ∨
          b.get_cell_state row (leftOf col) = Cell.Independent ∨
          b.get_cell_state (row + 1) col = Cell.Independent ∨
          b.get_cell_state (upOf row) col = Cell.Independent)

/-- `would_cell_start_new_chain`. -/
def would_cell_start_new_chain (b : GameBoard) (row col : Nat) : Bool :=
  (b.get_adjacent_hotels row col).length == 0 && b.is_cell_next_to_independent row col

/-- `get_conflict_on_board`: first conflict cell in row-major scan order. -/
def get_conflict_on_board (b : GameBoard) : Option (Nat × Nat × CellConflictType) :=
  boardCoords.findSome? fun rc =>
    match b.get_cell_state rc.1 rc.2 with
    | Cell.Conflict t => some (rc.1, rc.2, t)
    | _ => none

/-- `is_cell_playable`. -/
def is_cell_playable (b : GameBoard) (row col : Nat) : Except CellNotPlayableReason Bool :=
  if ¬(row < BOARD_ROWS ∧ col < BOARD_COLS) then .error .CellIsOffBoard
  else if (b.get_conflict_on_board).isSome then .error .ConflictOnBoard
  else if b.get_cell_state row col ≠ Cell.Empty then .error .CellIsNotEmpty
  else
    let active_hotels := b.get_active_hotels
    let adjacent_hotels := b.get_adjacent_hotels row col
    if active_hotels.length ≥ Hotel.count ∧ b.would_cell_start_new_chain row col then
      .error .HotelsAreAllActive
    else if adjacent_hotels.length > 1 ∧
        (adjacent_hotels.filter fun h => decide (b.get_hotel_chain_size h ≥ SAFE_CHAIN_SIZE)).length > 1 then
      .error .AdjacentHotelsAreSafe
    else .ok true

/-- The recursive flood fill of `flood_hotel` (`fn fill`), with explicit fuel.
Each call either returns without recursing or first overwrites one cell that
was not `Hotel hotel` with `Hotel hotel`, so the recursion depth of the Rust
original is at most `BOARD_ROWS * BOARD_COLS + 1`; `FLOOD_FUEL` therefore makes
the fuelled version agree with the unbounded Rust recursion. -/
def fill : Nat → GameBoard → Nat → Nat → Hotel → GameBoard
  | 0, b, _, _, _ => b
  | fuel + 1, b, row, col, hotel =>
    let cs := b.get_cell_state row col
    if cs = Cell.Empty then b
    else if cs = Cell.Hotel hotel then b
    else
      let b1 := b.setCell row col (Cell.Hotel hotel)
      let b2 := fill fuel b1 (row + 1) col hotel
      let b3 := fill fuel b2 (upOf row) col hotel
      let b4 := fill fuel b3 row (col + 1) hotel
      fill fuel b4 row (leftOf col) hotel

def FLOOD_FUEL : Nat := BOARD_ROWS * BOARD_COLS + 1

/-- `flood_hotel`. -/
def flood_hotel (b : GameBoard) (row col : Nat) (hotel : Hotel) : GameBoard :=
  fill FLOOD_FUEL b row col hotel

/-- `place_tile`: returns the Rust result together with the board after the
call (the Rust function mutates `self`). -/
def place_tile (b : GameBoard) (row col : Nat) : PlaceTileResult × GameBoard :=
  match b.is_cell_playable row col with
  | .error reason => (.CellNotPlayable reason, b)
  | .ok _ =>
    if b.would_cell_start_new_chain row col then
      (.ConflictCreated .NewChain, b.setCell row col (Cell.Conflict .NewChain))
    else
      let adjacent_hotels := b.get_adjacent_hotels row col
      if adjacent_hotels.length > 1 then
        let number_of_mergers := adjacent_hotels.length - 1
        (.ConflictCreated (.Merge number_of_mergers),
          b.setCell row col (Cell.Conflict (.Merge number_of_mergers)))
      else
        let b1 := b.setCell row col Cell.Independent
        match adjacent_hotels with
        | [hotel] => (.Success, b1.flood_hotel row col hotel)
        | _ => (.Success, b1)

/-- `acceptable_conflict_resolutions`.  For a `Merge` conflict the Rust code
calls `.max().unwrap()` on the adjacent-hotel sizes; the `unwrap` panic on an
empty adjacency list is modelled as `none`. -/
def acceptable_conflict_resolutions (b : GameBoard) : Option (List Hotel) :=
  match b.get_conflict_on_board with
  | some (row, col, conflict_type) =>
    match conflict_type with
    | .NewChain => some b.get_inactive_hotels
    | .Merge _ =>
      match b.get_adjacent_hotels row col with
      | [] => none
      | adjacent_hotels =>
        let max_chain_size :=
          (adjacent_hotels.map fun h => b.get_hotel_chain_size h).foldl Nat.max 0
        some (adjacent_hotels.filter fun h => decide (b.get_hotel_chain_size h = max_chain_size))
  | none => some []

/-- `resolve_conflict`: result together with the board after the call.  The
inner `panicked` case is the Rust `get_conflict_on_board().unwrap()`, dead
code because a hotel can only be contained in a nonempty acceptable list,
which requires a conflict on the board. -/
def resolve_conflict (b : GameBoard) (hotel : Hotel) : Outc Unit × GameBoard :=
  match b.acceptable_conflict_resolutions with
  | none => (.panicked, b)
  | some acceptable_hotels =>
    if hotel ∈ acceptable_hotels then
      match b.get_conflict_on_board with
      | some (row, col, _) => (.ok (), b.flood_hotel row col hotel)
      | none => (.panicked, b)
    else (.invalid ("Hotel is not an acceptable resolution"), b)

/-- `place_initial_tile` body (`self.cells[row][col] = Cell::Independent`);
the caller models the panic on out-of-bounds coordinates. -/
def place_initial_tile (b : GameBoard) (row col : Nat) : GameBoard :=
  b.setCell row col Cell.Independent

/-- `replace_defunct_hotel_with_surviving_hotel`. -/
def replace_defunct_hotel_with_surviving_hotel (b : GameBoard)
    (defunct_hotel surviving_hotel : Hotel) : GameBoard :=
  ⟨fun r c => if b.cells r c = Cell.Hotel defunct_hotel
              then Cell.Hotel surviving_hotel else b.cells r c⟩

end GameBoard

/-! ## player.rs and acquire_constants.rs -/

/-- `struct Player`. -/
structure Player where
  name : String
  stocks : Hotel → Nat
  cash : Nat
  tiles : List Tile
deriving DecidableEq

/-- `Player::new`. -/
def Player.new (name : String) : Player :=
  { name := name, stocks := fun _ => 0, cash := 6000, tiles := [] }

/-- Modelled from the spec: `acquire_constants.rs` is not among the provided
sources; the spec fixes the bank stock pool as "initialized to a fixed cap
(25) each". -/
def MAX_STOCK_PER_HOTEL : Nat := 25

/-- Modelled from the spec: `acquire_constants.rs` is not among the provided
sources; the spec fixes the buy-stock quota as "player may buy 1 share per
request, up to 3 total". -/
def STOCK_TO_BUY_PER_TURN : Nat := 3

/-! ## game_states -/

/-- `struct GameStartState`. -/
structure GameStartState where
  player_with_winning_tile : Nat
  winning_tile : Tile
  remaining_number_of_players : Nat
deriving DecidableEq

/-- `GameStartState::new`. -/
def GameStartState.new (number_of_players : Nat) : GameStartState :=
  { player_with_winning_tile := USIZE_MAX
    winning_tile := ⟨USIZE_MAX, USIZE_MAX⟩
    remaining_number_of_players := number_of_players }

/-- `struct BuyStockState`. -/
structure BuyStockState where
  player : Nat
  buys_remaining : Nat
deriving DecidableEq

/-- `struct MergerState`. -/
structure MergerState where
  merge_maker : Nat
  surviving_hotel : Hotel
  hotel_to_merge : Option Hotel
  defunct_hotels_remaining : List Hotel
deriving DecidableEq

/-- `MergerState::get_largest_defunct_chains`; `none` is the Rust
`.max().unwrap()` panic on an empty defunct list. -/
def MergerState.get_largest_defunct_chains (ms : MergerState) (b : GameBoard) :
    Option (List Hotel) :=
  match ms.defunct_hotels_remaining with
  | [] => none
  | hs =>
    let largest_defunct_chain_size :=
      (hs.map fun h => b.get_hotel_chain_size h).foldl Nat.max 0
    some (hs.filter fun h => decide (b.get_hotel_chain_size h = largest_defunct_chain_size))

/-- `struct DisposeStockState`. -/
structure DisposeStockState where
  merge_maker : Nat
  surviving_chain : Hotel
  defunct_chain : Hotel
  remaining_shares_per_player : List Nat
deriving DecidableEq

/-- `DisposeStockState::player_handled_stock`: the new state and the
all-players-done flag; `none` covers the Rust index panic and the explicit
`panic!` when `shares` exceeds the player's remaining count. -/
def DisposeStockState.player_handled_stock (ds : DisposeStockState) (player shares : Nat) :
    Option (DisposeStockState × Bool) :=
  match ds.remaining_shares_per_player.get? player with
  | none => none
  | some r =>
    if shares > r then none
    else
      let l := ds.remaining_shares_per_player.set player (r - shares)
      some ({ ds with remaining_shares_per_player := l }, l.all fun s => s == 0)

/-! ## acquire_request.rs / acquire_response.rs / acquire_game_state.rs -/

/-- `enum AcquireRequest`. -/
inductive AcquireRequest where
  | PlayStartingTile (player : Nat)
  | PlayTile (player : Nat)
  | ChooseNewChain (player : Nat)
  | ChooseMergerSurvivor (player : Nat)
  | ChooseDefunctChainToResolve (player : Nat)
  | DisposeStock
  | BuyStock (player : Nat)
  | EndGame (player : Nat)
deriving DecidableEq

/-- `enum DisposeStockChoice`. -/
inductive DisposeStockChoice where
  | Keep
  | Sell
  | Trade
  | SellAll
  | KeepAll
  | TradeAll
deriving DecidableEq

/-- `enum BuyStockChoice`. -/
inductive BuyStockChoice where
  | Buy (h : Hotel)
  | Pass
deriving DecidableEq

/-- `enum AcquireResponse`. -/
inductive AcquireResponse where
  | StartingTile
  | Tile (t : Tile)
  | NewChain (h : Hotel)
  | DefunctChainToResolve (h : Hotel)
  | MergerSurvivor (h : Hotel)
  | DisposeStock (player : Nat) (choice : DisposeStockChoice)
  | BuyStock (choice : BuyStockChoice)
  | EndGame (quit : Bool)
deriving DecidableEq

/-- `enum AcquireGameState`. -/
inductive AcquireGameState where
  | GameStart (s : GameStartState)
  | PlayTile (player : Nat)
  | DisposeStock (s : DisposeStockState)
  | Merger (s : MergerState)
  | BuyStock (s : BuyStockState)
  | EndGame (player : Nat)
deriving DecidableEq

/-! ## acquire_game.rs -/

/-- `struct AcquireGame` (without the write-only `message_callback`). -/
structure AcquireGame where
  players : List Player
  board : GameBoard
  available_tiles : List Tile
  available_stock : Hotel → Nat
  current_request : AcquireRequest
  current_state : AcquireGameState
deriving DecidableEq

namespace AcquireGame

/-- `AcquireGame::new`. -/
def new (number_of_players : Nat) : AcquireGame :=
  { players := (List.range number_of_players).map fun i =>
      Player.new ("Player " ++ toString (i + 1))
    board := GameBoard.new
    available_tiles := boardCoords.map fun rc => ⟨rc.1, rc.2⟩
    available_stock := fun _ => MAX_STOCK_PER_HOTEL
    current_request := .PlayStartingTile 0
    current_state := .GameStart (GameStartState.new number_of_players) }

/-- A step of the engine: outcome plus the state of `self` after the call. -/
abbrev EStep := AcquireGame → Outc Unit × AcquireGame

/-- `self.players[player] = p` (call sites establish `player` in bounds). -/
def setPlayer (g : AcquireGame) (player : Nat) (p : Player) : AcquireGame :=
  { g with players := g.players.set player p }

/-- `take_random_tile`, with the RNG draw abstracted by `choose`; `panicked`
is the `unwrap` on an empty pool. -/
def take_random_tile (choose : List Tile → Option Tile) (g : AcquireGame) :
    Outc Tile × AcquireGame :=
  match choose g.available_tiles with
  | none => (.panicked, g)
  | some tile => (.ok tile, { g with available_tiles := g.available_tiles.erase tile })

/-- `give_player_tile`. -/
def give_player_tile (choose : List Tile → Option Tile) (player : Nat) : EStep := fun g =>
  match take_random_tile choose g with
  | (.ok tile, g1) =>
    match g1.players.get? player with
    | some p => (.ok (), setPlayer g1 player { p with tiles := p.tiles ++ [tile] })
    | none => (.panicked, g1)
  | (.invalid m, g1) => (.invalid m, g1)
  | (.panicked, g1) => (.panicked, g1)

/-- `end_turn`.  The `(player + 1) % self.players.len()` division panics when
there are no players. -/
def end_turn (choose : List Tile → Option Tile) (player : Nat) : EStep := fun g =>
  match give_player_tile choose player g with
  | (.ok _, g1) =>
    if g1.players.length = 0 then (.panicked, g1)
    else
      let next_player := (player + 1) % g1.players.length
      (.ok (), { g1 with current_request := .PlayTile next_player
                         current_state := .PlayTile next_player })
  | other => other

/-- `give_player_stock`. -/
def give_player_stock (hotel : Hotel) (player shares : Nat) : EStep := fun g =>
  if g.available_stock hotel < shares then (.ok (), g)
  else
    match g.players.get? player with
    | none => (.panicked, g)
    | some p =>
      let g1 := setPlayer g player
        { p with stocks := Function.update p.stocks hotel (p.stocks hotel + shares) }
      (.ok (), { g1 with
        available_stock :=
          Function.update g1.available_stock hotel (g1.available_stock hotel - shares) })

/-- `sell_off_players_stock`. -/
def sell_off_players_stock (hotel : Hotel) (player shares : Nat) : EStep := fun g =>
  match g.players.get? player with
  | none => (.panicked, g)
  | some p =>
    if p.stocks hotel < shares then (.ok (), g)
    else
      let stock_value := hotel.get_stock_value (g.board.get_hotel_chain_size hotel)
      let payout := stock_value * shares
      let g1 := setPlayer g player
        { p with cash := p.cash + payout
                 stocks := Function.update p.stocks hotel (p.stocks hotel - shares) }
      (.ok (), { g1 with
        available_stock :=
          Function.update g1.available_stock hotel (g1.available_stock hotel + shares) })

/-- `take_back_players_stock`. -/
def take_back_players_stock (hotel : Hotel) (player shares : Nat) : EStep := fun g =>
  match g.players.get? player with
  | none => (.panicked, g)
  | some p =>
    if p.stocks hotel < shares then (.ok (), g)
    else
      let g1 := setPlayer g player
        { p with stocks := Function.update p.stocks hotel (p.stocks hotel - shares) }
      (.ok (), { g1 with
        available_stock :=
          Function.update g1.available_stock hotel (g1.available_stock hotel + shares) })

/-- The 6-slot `[isize; 6]` index arrays of `pay_out_defunct_chain`; `none`
is the Rust index panic past the sixth slot. -/
def set_arr6 (l : List Int) (i : Nat) (v : Int) : Option (List Int) :=
  if i < 6 then some (l.set i v) else none

/-- The classification loop of `pay_out_defunct_chain` ("Classify
stockholders into majority and minority, using indices"). -/
def classify_go (defunct : Hotel) (max_shares second_max_shares : Nat) :
    List Player → Nat → List Int → List Int → Nat → Nat →
    Option (List Int × List Int × Nat × Nat)
  | [], _, majI, minI, majC, minC => some (majI, minI, majC, minC)
  | p :: rest, index, majI, minI, majC, minC =>
    let shares := p.stocks defunct
    if shares = max_shares then
      match set_arr6 majI majC (Int.ofNat index) with
      | none => none
      | some majI1 => classify_go defunct max_shares second_max_shares rest (index + 1)
          majI1 minI (majC + 1) minC
    else if shares = second_max_shares then
      match set_arr6 minI minC (Int.ofNat index) with
      | none => none
      | some minI1 => classify_go defunct max_shares second_max_shares rest (index + 1)
          majI minI1 majC (minC + 1)
    else classify_go defunct max_shares second_max_shares rest (index + 1) majI minI majC minC

/-- The max / second-max scan of `pay_out_defunct_chain` ("Find the highest
and second-highest share counts"). -/
def max_second_scan (defunct : Hotel) (players : List Player) : Nat × Nat :=
  players.foldl
    (fun ms p =>
      let shares := p.stocks defunct
      if shares > ms.1 then (shares, ms.1)
      else if shares > ms.2 ∧ shares < ms.1 then (ms.1, shares)
      else ms)
    (0, 0)

/-- `distribute_payouts_array`.  The `self.players[index as usize]` access is
in bounds for every index the classification loop produces (they come from
`enumerate`); the impossible out-of-bounds case is modelled as a no-op. -/
def distribute_payouts_array (indices : List Int) (count total_payout : Nat)
    (g : AcquireGame) : AcquireGame :=
  if count = 0 then g
  else
    let payout_per_player := total_payout / count
    (indices.take count).foldl
      (fun g index =>
        if index ≠ -1 then
          match g.players.get? index.toNat with
          | some p => setPlayer g index.toNat { p with cash := p.cash + payout_per_player }
          | none => g
        else g)
      g

/-- `pay_out_defunct_chain`. -/
def pay_out_defunct_chain (defunct_hotel : Hotel) : EStep := fun g =>
  let defunct_chain_size := g.board.get_hotel_chain_size defunct_hotel
  let majority_payout := defunct_hotel.get_majority_holder_bonus defunct_chain_size
  let minority_payout := defunct_hotel.get_minority_holder_bonus defunct_chain_size
  let ms := max_second_scan defunct_hotel g.players
  match classify_go defunct_hotel ms.1 ms.2 g.players 0
      (List.replicate 6 (-1)) (List.replicate 6 (-1)) 0 0 with
  | none => (.panicked, g)
  | some (majority_indices, minority_indices, maj_count, min_count) =>
    let fold := min_count = 0 ∨ maj_count > 1
    let total_majority_payout := if fold then majority_payout + minority_payout
                                 else majority_payout
    let total_minority_payout := if fold then 0 else minority_payout
    let g1 := distribute_payouts_array majority_indices maj_count total_majority_payout g
    let g2 := if total_minority_payout > 0 then
                distribute_payouts_array minority_indices min_count total_minority_payout g1
              else g1
    (.ok (), g2)

/-- `begin_stock_disposal`. -/
def begin_stock_disposal (defunct_hotel : Hotel) : EStep := fun g =>
  match g.current_state with
  | .Merger merge_state =>
    let remaining_shares_per_player := g.players.map fun p => p.stocks defunct_hotel
    let dispose_stock_state : DisposeStockState :=
      { merge_maker := merge_state.merge_maker
        surviving_chain := merge_state.surviving_hotel
        defunct_chain := defunct_hotel
        remaining_shares_per_player := remaining_shares_per_player }
    (.ok (), { g with current_state := .DisposeStock dispose_stock_state
                      current_request := .DisposeStock })
  | _ => (.panicked, g)

/-- `handle_defunct_hotel`. -/
def handle_defunct_hotel (defunct_hotel : Hotel) : EStep := fun g =>
  match g.current_state with
  | .Merger _ =>
    match pay_out_defunct_chain defunct_hotel g with
    | (.ok _, g1) => begin_stock_disposal defunct_hotel g1
    | other => other
  | _ => (.panicked, g)

/-- `determine_next_defunct_hotel`. -/
def determine_next_defunct_hotel : EStep := fun g =>
  match g.current_state with
  | .Merger merge_state =>
    match merge_state.get_largest_defunct_chains g.board with
    | none => (.panicked, g)
    | some largest_defunct_chains =>
      match largest_defunct_chains with
      | [defunct_hotel] => handle_defunct_hotel defunct_hotel g
      | _ => (.ok (), { g with current_request :=
          .ChooseDefunctChainToResolve merge_state.merge_maker })
  | _ => (.panicked, g)

/-- `start_buy_stock_phase`. -/
def start_buy_stock_phase (choose : List Tile → Option Tile) (player : Nat) : EStep := fun g =>
  let active_hotels := g.board.get_active_hotels
  if active_hotels.isEmpty then end_turn choose player g
  else if active_hotels.all fun hotel => g.available_stock hotel == 0 then
    end_turn choose player g
  else
    (.ok (), { g with current_request := .BuyStock player
                      current_state := .BuyStock { player := player
                                                   buys_remaining := STOCK_TO_BUY_PER_TURN } })

/-- `start_merge_phase` (including the inlined `MergerState::new`, which
panics without a merge conflict on the board). -/
def start_merge_phase (merge_maker : Nat) (merge_survivor : Hotel) : EStep := fun g =>
  match g.board.get_conflict_on_board with
  | some (row, col, .Merge _) =>
    let defunct_hotels_remaining :=
      (g.board.get_adjacent_hotels row col).filter fun h => decide (h ≠ merge_survivor)
    let merge_state : MergerState :=
      { merge_maker := merge_maker
        surviving_hotel := merge_survivor
        hotel_to_merge := none
        defunct_hotels_remaining := defunct_hotels_remaining }
    determine_next_defunct_hotel { g with current_state := .Merger merge_state }
  | _ => (.panicked, g)

/-- `continue_merge_phase` (including the inlined `MergerState::new`). -/
def continue_merge_phase (choose : List Tile → Option Tile)
    (merge_maker : Nat) (merge_survivor : Hotel) : EStep := fun g =>
  match g.board.get_conflict_on_board with
  | some (row, col, .Merge _) =>
    let defunct_hotels_remaining :=
      (g.board.get_adjacent_hotels row col).filter fun h => decide (h ≠ merge_survivor)
    if defunct_hotels_remaining.isEmpty then
      match g.board.resolve_conflict merge_survivor with
      | (.panicked, _) => (.panicked, g)
      | (_, b1) => start_buy_stock_phase choose merge_maker { g with board := b1 }
    else
      let merge_state : MergerState :=
        { merge_maker := merge_maker
          surviving_hotel := merge_survivor
          hotel_to_merge := none
          defunct_hotels_remaining := defunct_hotels_remaining }
      determine_next_defunct_hotel { g with current_state := .Merger merge_state }
  | _ => (.panicked, g)

/-- The tail of `handle_dispose_stock_response` shared by all choices: on
`next_phase`, relabel the board and continue the merge. -/
def finish_dispose (choose : List Tile → Option Tile) (defunct_chain : Hotel)
    (merge_maker : Nat) (merge_survivor : Hotel) (next_phase : Bool) : EStep := fun g =>
  if next_phase then
    continue_merge_phase choose merge_maker merge_survivor
      { g with board :=
          g.board.replace_defunct_hotel_with_surviving_hotel defunct_chain merge_survivor }
  else (.ok (), g)

/-- `handle_dispose_stock_response`. -/
def handle_dispose_stock_response (choose : List Tile → Option Tile)
    (choice : DisposeStockChoice) (player : Nat) : EStep := fun g =>
  match g.current_state with
  | .DisposeStock dispose_stock_state =>
    let defunct_chain := dispose_stock_state.defunct_chain
    let merge_maker := dispose_stock_state.merge_maker
    let merge_survivor := dispose_stock_state.surviving_chain
    match dispose_stock_state.remaining_shares_per_player.get? player with
    | none => (.panicked, g)
    | some remaining_shares =>
      if remaining_shares = 0 then
        (.invalid ("You have already disposed of all your shares"), g)
      else
        let shares_to_handle :=
          match choice with
          | .Keep => 1
          | .Sell => 1
          | .Trade => 2
          | .SellAll => remaining_shares
          | .KeepAll => remaining_shares
          | .TradeAll => (remaining_shares / 2) * 2
        if shares_to_handle > remaining_shares then
          (.invalid ("You cannot dispose of more shares than you have"), g)
        else if shares_to_handle = 0 then
          (.invalid ("You cannot trade with only 1 share"), g)
        else
          match choice with
          | .Keep | .KeepAll =>
            match dispose_stock_state.player_handled_stock player 1 with
            | none => (.panicked, g)
            | some (ds1, next_phase) =>
              finish_dispose choose defunct_chain merge_maker merge_survivor next_phase
                { g with current_state := .DisposeStock ds1 }
          | .Sell | .SellAll =>
            match dispose_stock_state.player_handled_stock player shares_to_handle with
            | none => (.panicked, g)
            | some (ds1, next_phase) =>
              match sell_off_players_stock defunct_chain player shares_to_handle
                  { g with current_state := .DisposeStock ds1 } with
              | (.ok _, g2) =>
                finish_dispose choose defunct_chain merge_maker merge_survivor next_phase g2
              | other => other
          | .Trade | .TradeAll =>
            let stock_to_receive := shares_to_handle / 2
            if g.available_stock merge_survivor < stock_to_receive then
              (.invalid ("Not enough stock available in " ++ merge_survivor.displayName
                 ++ " to trade"), g)
            else
              match dispose_stock_state.player_handled_stock player shares_to_handle with
              | none => (.panicked, g)
              | some (ds1, next_phase) =>
                match give_player_stock merge_survivor player stock_to_receive
                    { g with current_state := .DisposeStock ds1 } with
                | (.ok _, g2) =>
                  match take_back_players_stock defunct_chain player shares_to_handle g2 with
                  | (.ok _, g3) =>
                    finish_dispose choose defunct_chain merge_maker merge_survivor next_phase g3
                  | other => other
                | other => other
  | _ => (.panicked, g)

/-- `handle_buy_stock_response` (including the inlined
`BuyStockState::player_has_bought_stock`, which panics when no buys
remain). -/
def handle_buy_stock_response (choose : List Tile → Option Tile)
    (choice : BuyStockChoice) : EStep := fun g =>
  match g.current_state with
  | .BuyStock buy_stock_state =>
    let player := buy_stock_state.player
    match choice with
    | .Pass => end_turn choose player g
    | .Buy hotel =>
      if g.available_stock hotel = 0 then
        (.invalid ("No " ++ hotel.displayName ++ " stock available to buy"), g)
      else
        match g.players.get? player with
        | none => (.panicked, g)
        | some p =>
          let stock_value := hotel.get_stock_value (g.board.get_hotel_chain_size hotel)
          if stock_value > p.cash then
            (.invalid ("You do not have enough cash to buy stock"), g)
          else if hotel ∉ g.board.get_active_hotels then
            (.invalid ("You cannot buy stock in an inactive chain"), g)
          else if buy_stock_state.buys_remaining = 0 then (.panicked, g)
          else
            let bs1 : BuyStockState :=
              { player := player, buys_remaining := buy_stock_state.buys_remaining - 1 }
            let end_phase := bs1.buys_remaining = 0
            let g1 := { g with current_state := .BuyStock bs1 }
            let g2 := setPlayer g1 player { p with cash := p.cash - stock_value }
            match give_player_stock hotel player 1 g2 with
            | (.ok _, g3) => if end_phase then end_turn choose player g3 else (.ok (), g3)
            | other => other
  | _ => (.panicked, g)

/-- `handle_new_chain_response`.  The `Result` of `resolve_conflict` is
discarded by the Rust code (no `?`), but a panic inside it would
propagate. -/
def handle_new_chain_response (choose : List Tile → Option Tile)
    (hotel : Hotel) (player : Nat) : EStep := fun g =>
  if hotel ∉ g.board.get_inactive_hotels then
    (.invalid ("Hotel is already on the board"), g)
  else
    match g.board.resolve_conflict hotel with
    | (.panicked, _) => (.panicked, g)
    | (_, b1) =>
      let g1 := { g with board := b1 }
      if g1.available_stock hotel > 0 then
        match give_player_stock hotel player 1 g1 with
        | (.ok _, g2) => start_buy_stock_phase choose player g2
        | other => other
      else start_buy_stock_phase choose player g1

/-- `handle_merger_survivor_response`. -/
def handle_merger_survivor_response (player : Nat) (hotel : Hotel) : EStep :=
  start_merge_phase player hotel

/-- `handle_defunct_chain_response`. -/
def handle_defunct_chain_response (hotel : Hotel) : EStep :=
  handle_defunct_hotel hotel

/-- One round-robin pass of `give_player_tile` calls over the given player
indices (the tile-dealing loops of `handle_game_start_complete`). -/
def give_tiles_loop (choose : List Tile → Option Tile) : List Nat → EStep
  | [] => fun g => (.ok (), g)
  | i :: rest => fun g =>
    match give_player_tile choose i g with
    | (.ok _, g1) => give_tiles_loop choose rest g1
    | other => other

/-- `handle_game_start_complete`. -/
def handle_game_start_complete (choose : List Tile → Option Tile) : EStep := fun g =>
  match g.current_state with
  | .GameStart game_start_state =>
    match give_tiles_loop choose
        ((List.range 6).flatMap fun _ => List.range g.players.length) g with
    | (.ok _, g1) =>
      (.ok (), { g1 with
        current_state := .PlayTile game_start_state.player_with_winning_tile
        current_request := .PlayTile game_start_state.player_with_winning_tile })
    | other => other
  | _ => (.panicked, g)

/-- `handle_starting_tile_response` (including the inlined
`GameStartState::player_played_tile` and `place_initial_tile`). -/
def handle_starting_tile_response (choose : List Tile → Option Tile)
    (tile : Tile) (player : Nat) : EStep := fun g =>
  if g.available_tiles.contains tile then (.panicked, g)
  else if g.board.get_cell_state tile.row tile.col ≠ Cell.Empty then (.panicked, g)
  else
    match g.current_state with
    | .GameStart game_start_state =>
      if tile.row < BOARD_ROWS ∧ tile.col < BOARD_COLS then
        let g1 := { g with board := g.board.place_initial_tile tile.row tile.col }
        if game_start_state.remaining_number_of_players = 0 then (.panicked, g1)
        else
          let gss1 :=
            if game_start_state.winning_tile.gtTile tile then
              { game_start_state with winning_tile := tile, player_with_winning_tile := player }
            else game_start_state
          let gss2 :=
            { gss1 with remaining_number_of_players := gss1.remaining_number_of_players - 1 }
          let g2 := { g1 with current_state := .GameStart gss2 }
          if gss2.remaining_number_of_players = 0 then handle_game_start_complete choose g2
          else if g2.players.length = 0 then (.panicked, g2)
          else
            (.ok (), { g2 with
              current_request := .PlayStartingTile ((player + 1) % g2.players.length) })
      else (.panicked, g)
    | _ => (.panicked, g)

/-- `self.players[player].tiles.retain(|t| t != &tile)` at the end of
`handle_tile_response`. -/
def remove_tile_from_hand (tile : Tile) (player : Nat) : EStep := fun g =>
  match g.players.get? player with
  | none => (.panicked, g)
  | some p =>
    (.ok (), setPlayer g player { p with tiles := p.tiles.filter fun t => decide (t ≠ tile) })

/-- `handle_tile_response`. -/
def handle_tile_response (choose : List Tile → Option Tile)
    (tile : Tile) (player : Nat) : EStep := fun g =>
  if g.available_tiles.contains tile then (.panicked, g)
  else if g.board.get_cell_state tile.row tile.col ≠ Cell.Empty then (.panicked, g)
  else
    match g.players.get? player with
    | none => (.panicked, g)
    | some pl =>
      if tile ∉ pl.tiles then (.panicked, g)
      else
        let pres := g.board.place_tile tile.row tile.col
        let g1 := { g with board := pres.2 }
        match pres.1 with
        | .CellNotPlayable not_playable_reason =>
          (.invalid (not_playable_reason.as_display_message), g1)
        | .Success =>
          match start_buy_stock_phase choose player g1 with
          | (.ok _, g2) => remove_tile_from_hand tile player g2
          | other => other
        | .ConflictCreated conflict_type =>
          match conflict_type with
          | .NewChain =>
            remove_tile_from_hand tile player
              { g1 with current_request := .ChooseNewChain player }
          | .Merge _ =>
            match g1.board.acceptable_conflict_resolutions with
            | none => (.panicked, g1)
            | some largest_chains_in_merger =>
              match largest_chains_in_merger with
              | [survivor] =>
                match start_merge_phase player survivor g1 with
                | (.ok _, g2) => remove_tile_from_hand tile player g2
                | other => other
              | _ =>
                remove_tile_from_hand tile player
                  { g1 with current_request := .ChooseMergerSurvivor player }

/-- `handle_end_game_response` (an empty body in the source). -/
def handle_end_game_response (_quit : Bool) (_player : Nat) : EStep := fun g => (.ok (), g)

/-- `handle_player_response`. -/
def handle_player_response (choose : List Tile → Option Tile)
    (g : AcquireGame) (response : AcquireResponse) : Outc Unit × AcquireGame :=
  match g.current_request with
  | .PlayStartingTile player =>
    match response with
    | .StartingTile =>
      match take_random_tile choose g with
      | (.ok tile, g1) => handle_starting_tile_response choose tile player g1
      | (.invalid m, g1) => (.invalid m, g1)
      | (.panicked, g1) => (.panicked, g1)
    | _ => (.invalid ("Invalid response to starting tile request"), g)
  | .PlayTile player =>
    match response with
    | .Tile tile => handle_tile_response choose tile player g
    | _ => (.invalid ("Invalid response to tile request"), g)
  | .ChooseNewChain player =>
    match response with
    | .NewChain hotel => handle_new_chain_response choose hotel player g
    | _ => (.invalid ("Invalid response to new chain request"), g)
  | .ChooseMergerSurvivor player =>
    match response with
    | .MergerSurvivor hotel => handle_merger_survivor_response player hotel g
    | _ => (.invalid ("Invalid response to merger survivor request"), g)
  | .ChooseDefunctChainToResolve _player =>
    match response with
    | .DefunctChainToResolve hotel => handle_defunct_chain_response hotel g
    | _ => (.invalid ("Invalid response to defunct chain request"), g)
  | .DisposeStock =>
    match response with
    | .DisposeStock player choice => handle_dispose_stock_response choose choice player g
    | _ => (.invalid ("Invalid response to dispose stock request"), g)
  | .BuyStock _ =>
    match response with
    | .BuyStock choice => handle_buy_stock_response choose choice g
    | _ => (.invalid ("Invalid response to buy stock request"), g)
  | .EndGame player =>
    match response with
    | .EndGame quit => handle_end_game_response quit player g
    | _ => (.invalid ("Invalid response to end game request"), g)

end AcquireGame

/-! ## Spec-side definitions used in theorem statements -/

/-- True exactly on `Cell.Conflict`. -/
def isConflictCell : Cell → Bool
  | .Conflict _ => true
  | _ => false

/-- The number of cells of a board in state `Conflict`. -/
def conflictCount (b : GameBoard) : Nat :=
  (Finset.univ.filter fun rc : Fin BOARD_ROWS × Fin BOARD_COLS =>
    isConflictCell (b.cells rc.1 rc.2) = true).card

/-- The bank pool of a chain plus all players' holdings of it. -/
def stockTotal (g : AcquireGame) (h : Hotel) : Nat :=
  g.available_stock h + (g.players.map fun p => p.stocks h).sum

/-- Modelled from the spec: the price-bracket table "fixed breakpoints
{2,3,4,5,6-10,11-20,21-30,31-40,41+}" (defined for sizes ≥ 2; sizes 0/1 are
never queried per the spec). -/
def spec_price_bracket (n : Nat) : Nat :=
  if n = 2 then 0
  else if n = 3 then 1
  else if n = 4 then 2
  else if n = 5 then 3
  else if n ≤ 10 then 4
  else if n ≤ 20 then 5
  else if n ≤ 30 then 6
  else if n ≤ 40 then 7
  else 8

/-- Off the 9×12 grid. -/
def offGrid (row col : Nat) : Prop := BOARD_ROWS ≤ row ∨ BOARD_COLS ≤ col

/-- The cell is not `Empty`. -/
def cellOccupied (b : GameBoard) (row col : Nat) : Prop :=
  b.get_cell_state row col ≠ Cell.Empty

/-- Placing here would start a new chain while all 7 chains are active. -/
def newChainWhileFull (b : GameBoard) (row col : Nat) : Prop :=
  b.get_active_hotels.length ≥ Hotel.count ∧ b.would_cell_start_new_chain row col = true

/-- The cell is adjacent to at least two chains of size ≥ `SAFE_CHAIN_SIZE`. -/
def adjacentSafePair (b : GameBoard) (row col : Nat) : Prop :=
  ((b.get_adjacent_hotels row col).filter fun h =>
    decide (b.get_hotel_chain_size h ≥ SAFE_CHAIN_SIZE)).length ≥ 2

instance (row col : Nat) : Decidable (offGrid row col) := by
  unfold offGrid; exact inferInstance

instance (b : GameBoard) (row col : Nat) : Decidable (cellOccupied b row col) := by
  unfold cellOccupied; exact inferInstance

instance (b : GameBoard) (row col : Nat) : Decidable (newChainWhileFull b row col) := by
  unfold newChainWhileFull; exact inferInstance

instance (b : GameBoard) (row col : Nat) : Decidable (adjacentSafePair b row col) := by
  unfold adjacentSafePair; exact inferInstance

/-- True exactly when `is_cell_playable` rejects the cell. -/
def cellRejected (b : GameBoard) (row col : Nat) : Bool :=
  match b.is_cell_playable row col with
  | .error _ => true
  | .ok _ => false

/-- True exactly on `PlaceTileResult.CellNotPlayable`. -/
def PlaceTileResult.isRejected : PlaceTileResult → Bool
  | .CellNotPlayable _ => true
  | _ => false

/-- The remaining-disposal vector of the current `DisposeStock` phase. -/
def disposeRemaining (g : AcquireGame) : List Nat :=
  match g.current_state with
  | .DisposeStock ds => ds.remaining_shares_per_player
  | _ => []

/-- A concrete draw function for witnesses: always the first pool tile. -/
def headChoose : List Tile → Option Tile := List.head?

/-! ## Concrete states used by counterexample / code-bug theorems -/

/-- A player with the given holdings and cash and an empty hand. -/
def mkPlayer (stocks : Hotel → Nat) (cash : Nat) : Player :=
  { name := "p", stocks := stocks, cash := cash, tiles := [] }

/-- Board for C1: a two-cell Luxor chain. -/
def bC1 : GameBoard :=
  ⟨fun r c => if r.val = 0 ∧ c.val ≤ 1 then Cell.Hotel .Luxor else Cell.Empty⟩

/-- Game for C1: player 0 holds one Luxor share, player 1 holds none. -/
def gC1 : AcquireGame :=
  { players := [mkPlayer (Function.update (fun _ => 0) Hotel.Luxor 1) 6000,
                mkPlayer (fun _ => 0) 6000]
    board := bC1
    available_tiles := []
    available_stock := fun _ => 25
    current_request := .DisposeStock
    current_state := .PlayTile 0 }

/-- Game for C2: a dispose-stock phase where player 0 still has 3 shares of
the defunct Luxor chain to dispose of. -/
def gC2 : AcquireGame :=
  { players := [mkPlayer (Function.update (fun _ => 0) Hotel.Luxor 3) 6000,
                mkPlayer (fun _ => 0) 6000]
    board := ⟨fun r c => if r.val = 0 ∧ c.val ≤ 1 then Cell.Hotel .Luxor else Cell.Empty⟩
    available_tiles := []
    available_stock := fun _ => 25
    current_request := .DisposeStock
    current_state := .DisposeStock
      { merge_maker := 0
        surviving_chain := .Tower
        defunct_chain := .Luxor
        remaining_shares_per_player := [3, 0] } }

/-- Board for C3: a merge conflict at (1,0) between Tower (size 2) and Luxor
(size 3); the only acceptable survivor is Luxor. -/
def bC3 : GameBoard :=
  ⟨fun r c =>
    if r.val = 0 ∧ c.val ≤ 1 then Cell.Hotel .Tower
    else if r.val = 2 ∧ c.val ≤ 2 then Cell.Hotel .Luxor
    else if r.val = 1 ∧ c.val = 0 then Cell.Conflict (.Merge 1)
    else Cell.Empty⟩

/-- Game for C3: the engine awaits `ChooseMergerSurvivor` on `bC3`. -/
def gC3 : AcquireGame :=
  { players := [mkPlayer (fun _ => 0) 6000, mkPlayer (fun _ => 0) 6000]
    board := bC3
    available_tiles := []
    available_stock := fun _ => 25
    current_request := .ChooseMergerSurvivor 0
    current_state := .PlayTile 0 }

/-- Game for the C4 scenario: a buy-stock phase with an empty bank pool. -/
def gBuyEmpty : AcquireGame :=
  { players := [mkPlayer (fun _ => 0) 6000, mkPlayer (fun _ => 0) 6000]
    board := ⟨fun r c => if r.val = 0 ∧ c.val ≤ 1 then Cell.Hotel .Tower else Cell.Empty⟩
    available_tiles := []
    available_stock := fun _ => 0
    current_request := .BuyStock 0
    current_state := .BuyStock { player := 0, buys_remaining := 3 } }

/-- Game for the C5 scenario: two players, 3 and 3 Tower shares, Tower chain
of size 4 so that the price is $400. -/
def gC5 : AcquireGame :=
  { players := [mkPlayer (Function.update (fun _ => 0) Hotel.Tower 3) 6000,
                mkPlayer (Function.update (fun _ => 0) Hotel.Tower 3) 6000]
    board := ⟨fun r c => if r.val = 0 ∧ c.val ≤ 3 then Cell.Hotel .Tower else Cell.Empty⟩
    available_tiles := []
    available_stock := fun _ => 25
    current_request := .DisposeStock
    current_state := .PlayTile 0 }

/-- Board for the C7 witness: two safe chains (size 11 each) one row apart;
cell (1,0) connects them. -/
def bSafe : GameBoard :=
  ⟨fun r c =>
    if r.val = 0 ∧ c.val ≤ 10 then Cell.Hotel .Luxor
    else if r.val = 2 ∧ c.val ≤ 10 then Cell.Hotel .Tower
    else Cell.Empty⟩

/-- Board for the C8 witness, part 2: a lone conflict cell. -/
def bConflict : GameBoard :=
  ⟨fun r c => if r.val = 0 ∧ c.val = 1 then Cell.Conflict .NewChain else Cell.Empty⟩

/-- Board for the C9 witness: an independent cell plus a new-chain conflict. -/
def bC9 : GameBoard :=
  ⟨fun r c =>
    if r.val = 0 ∧ c.val = 0 then Cell.Independent
    else if r.val = 0 ∧ c.val = 1 then Cell.Conflict .NewChain
    else Cell.Empty⟩

/-! ## C6: the pricing table -/

/-- The row computed by the code equals the spec bracket plus the per-chain
row advantage, for every size the spec defines a bracket for. -/
theorem get_row_eq_spec_bracket (h : Hotel) (n : Nat) (hn : 2 ≤ n) :
    h.get_row_from_chain_length n = spec_price_bracket n + h.get_hotel_row_advantage := by
  unfold Hotel.get_row_from_chain_length spec_price_bracket
  split_ifs <;> dsimp only <;> omega

/-- C6: for every chain and every chain size (≥ 2, the sizes for which the
spec's breakpoint table {2,3,4,5,6-10,11-20,21-30,31-40,41+} defines a
bracket), the stock price equals (bracket + row-offset + 2) × 100, the
majority bonus equals price × 10 and the minority bonus equals price × 5;
the mapping is a pure function of chain and size. -/
theorem acquire_c6 (h : Hotel) (n : Nat) (hn : 2 ≤ n) :
    h.get_stock_value n = (spec_price_bracket n + h.get_hotel_row_advantage + 2) * 100 ∧
    h.get_majority_holder_bonus n = h.get_stock_value n * 10 ∧
    h.get_minority_holder_bonus n = h.get_stock_value n * 5 := by
  refine ⟨?_, rfl, rfl⟩
  unfold Hotel.get_stock_value
  rw [get_row_eq_spec_bracket h n hn]

/-- Witness for C6 at Tower with chain size 4 (price $400). -/
theorem acquire_c6_witness :
    2 ≤ 4 ∧
    (Hotel.Tower.get_stock_value 4 =
        (spec_price_bracket 4 + Hotel.Tower.get_hotel_row_advantage + 2) * 100 ∧
      Hotel.Tower.get_majority_holder_bonus 4 = Hotel.Tower.get_stock_value 4 * 10 ∧
      Hotel.Tower.get_minority_holder_bonus 4 = Hotel.Tower.get_stock_value 4 * 5) :=
  ⟨by decide, acquire_c6 Hotel.Tower 4 (by decide)⟩

/-! ## C1: zero-share players and the defunct payout -/

/-- C1: the claim fails on the code.  In `gC1` the defunct Luxor chain has
size 2 (bonuses $2000/$1000); player 1 holds zero Luxor shares, yet
`pay_out_defunct_chain` classifies them as the minority holder (the
second-highest scan leaves `second_max_shares = 0`) and pays them the $1000
minority bonus: their cash grows from $6000 to $7000. -/
theorem acquire_c1_bug :
    (AcquireGame.pay_out_defunct_chain Hotel.Luxor gC1).1 = Outc.ok () ∧
    ((gC1.players.map Player.cash) = [6000, 6000]) ∧
    ((AcquireGame.pay_out_defunct_chain Hotel.Luxor gC1).2.players.map Player.cash
      = [8000, 7000]) := by decide

/-! ## C2: the *-All disposal choices -/

/-- C2: the claim fails on the code for `KeepAll`.  In `gC2` player 0 has 3
remaining Luxor shares; answering `KeepAll` is accepted but reduces the
remaining-disposal count by 1 (the handler calls `player_handled_stock(player,
1)` for both `Keep` and `KeepAll`), leaving [2, 0] instead of [0, 0]. -/
theorem acquire_c2_bug :
    (AcquireGame.handle_player_response headChoose gC2
        (.DisposeStock 0 .KeepAll)).1 = Outc.ok () ∧
    disposeRemaining (AcquireGame.handle_player_response headChoose gC2
        (.DisposeStock 0 .KeepAll)).2 = [2, 0] := by decide

/-! ## C3: validation of chain choices -/

/-- C3: the claim fails on the code for `ChooseMergerSurvivor` (and likewise
`ChooseDefunctChainToResolve`): `handle_merger_survivor_response` never
checks the chosen chain against the acceptable set.  On `gC3` the only
acceptable survivor is Luxor, yet choosing American is accepted (`Ok`), the
merger starts, the payout mutates both players' cash and the outstanding
request changes to `DisposeStock`. -/
theorem acquire_c3_bug :
    bC3.acceptable_conflict_resolutions = some [Hotel.Luxor] ∧
    (AcquireGame.handle_player_response headChoose gC3
        (.MergerSurvivor .American)).1 = Outc.ok () ∧
    (AcquireGame.handle_player_response headChoose gC3
        (.MergerSurvivor .American)).2.current_request = .DisposeStock ∧
    (AcquireGame.handle_player_response headChoose gC3
        (.MergerSurvivor .American)).2.players.map Player.cash = [8250, 8250] := by decide

/-! ## Board lemmas -/

theorem findSome?_eq_none_iff {α β : Type} {f : α → Option β} :
    ∀ {l : List α}, l.findSome? f = none ↔ ∀ x ∈ l, f x = none := by
  intro l
  induction l with
  | nil => simp [List.findSome?]
  | cons a l ih =>
    simp only [List.findSome?]
    cases h : f a <;> simp [h, ih]

theorem findSome?_eq_some_mem {α β : Type} {f : α → Option β} {v : β} :
    ∀ {l : List α}, l.findSome? f = some v → ∃ x ∈ l, f x = some v := by
  intro l
  induction l with
  | nil => simp [List.findSome?]
  | cons a l ih =>
    simp only [List.findSome?]
    cases h : f a with
    | some b =>
      intro hv
      have hbv : b = v := by simpa using hv
      exact ⟨a, by simp, by simp [h, hbv]⟩
    | none =>
      intro hv
      obtain ⟨x, hx, hfx⟩ := ih hv
      exact ⟨x, by simp [hx], hfx⟩

theorem mem_boardCoords {r c : Nat} :
    (r, c) ∈ boardCoords ↔ r < BOARD_ROWS ∧ c < BOARD_COLS := by
  simp only [boardCoords, List.mem_flatMap, List.mem_map, List.mem_range, Prod.mk.injEq]
  constructor
  · rintro ⟨row, hrow, col, hcol, h1, h2⟩
    omega
  · rintro ⟨h1, h2⟩
    exact ⟨r, h1, c, h2, rfl, rfl⟩

namespace GameBoard

theorem get_cell_state_inb (b : GameBoard) {r c : Nat}
    (h1 : r < BOARD_ROWS) (h2 : c < BOARD_COLS) :
    b.get_cell_state r c = b.cells ⟨r, h1⟩ ⟨c, h2⟩ := by
  simp [get_cell_state, h1, h2]

theorem inb_of_ne_empty {b : GameBoard} {r c : Nat}
    (h : b.get_cell_state r c ≠ Cell.Empty) : r < BOARD_ROWS ∧ c < BOARD_COLS := by
  by_contra hc
  exact h (by simp [get_cell_state, hc])

/-- A board has no conflict in scan order iff no cell is in conflict state. -/
theorem get_conflict_none_iff {b : GameBoard} :
    b.get_conflict_on_board = none ↔
      ∀ (r : Fin BOARD_ROWS) (c : Fin BOARD_COLS), isConflictCell (b.cells r c) = false := by
  unfold get_conflict_on_board
  rw [findSome?_eq_none_iff]
  constructor
  · intro h r c
    have hm : ((r : Nat), (c : Nat)) ∈ boardCoords := mem_boardCoords.mpr ⟨r.isLt, c.isLt⟩
    have := h _ hm
    rw [get_cell_state_inb b r.isLt c.isLt] at this
    revert this
    cases b.cells r c <;> simp [isConflictCell]
  · intro h rc hm
    obtain ⟨h1, h2⟩ := mem_boardCoords.mp (by rwa [← Prod.mk.eta (p := rc)] at hm)
    have := h ⟨rc.1, h1⟩ ⟨rc.2, h2⟩
    rw [get_cell_state_inb b h1 h2]
    revert this
    cases b.cells ⟨rc.1, h1⟩ ⟨rc.2, h2⟩ <;> simp [isConflictCell]

theorem conflictCount_eq_zero_iff {b : GameBoard} :
    conflictCount b = 0 ↔
      ∀ (r : Fin BOARD_ROWS) (c : Fin BOARD_COLS), isConflictCell (b.cells r c) = false := by
  unfold conflictCount
  rw [Finset.card_eq_zero, Finset.filter_eq_empty_iff]
  constructor
  · intro h r c
    have := h (Finset.mem_univ (r, c))
    simpa using this
  · intro h rc _
    simp [h rc.1 rc.2]

/-- If a conflict is found, that cell really is in conflict state. -/
theorem get_conflict_some {b : GameBoard} {r c : Nat} {t : CellConflictType}
    (h : b.get_conflict_on_board = some (r, c, t)) :
    b.get_cell_state r c = Cell.Conflict t := by
  obtain ⟨rc, _, hf⟩ := findSome?_eq_some_mem h
  revert hf
  cases hc : b.get_cell_state rc.1 rc.2 <;> simp_all
  rintro rfl rfl rfl
  exact hc

theorem setCell_get_self {b : GameBoard} {row col : Nat} {v : Cell}
    (h1 : row < BOARD_ROWS) (h2 : col < BOARD_COLS) :
    (b.setCell row col v).get_cell_state row col = v := by
  simp [setCell, get_cell_state, h1, h2]

theorem setCell_cells {b : GameBoard} {row col : Nat} {v : Cell}
    (r : Fin BOARD_ROWS) (c : Fin BOARD_COLS) :
    (b.setCell row col v).cells r c = b.cells r c ∨
      ((r : Nat) = row ∧ (c : Nat) = col ∧ (b.setCell row col v).cells r c = v) := by
  unfold setCell
  split
  · next h =>
    by_cases hrc : r = (⟨row, h.1⟩ : Fin BOARD_ROWS) ∧ c = (⟨col, h.2⟩ : Fin BOARD_COLS)
    · right
      obtain ⟨hr, hc⟩ := hrc
      subst hr; subst hc
      simp
    · left; simp [hrc]
  · left; rfl

theorem setCell_cells_of_ne {b : GameBoard} {row col : Nat} {v : Cell}
    {r : Fin BOARD_ROWS} {c : Fin BOARD_COLS}
    (h : ¬((r : Nat) = row ∧ (c : Nat) = col)) :
    (b.setCell row col v).cells r c = b.cells r c := by
  rcases @setCell_cells b row col v r c with h1 | ⟨hr, hc, _⟩
  · exact h1
  · exact absurd ⟨hr, hc⟩ h

/-- `b1` differs from `b0` only in cells rewritten to `Hotel hotel`. -/
def cellsPreserved (hotel : Hotel) (b0 b1 : GameBoard) : Prop :=
  ∀ (r : Fin BOARD_ROWS) (c : Fin BOARD_COLS),
    b1.cells r c = b0.cells r c ∨ b1.cells r c = Cell.Hotel hotel

theorem cellsPreserved_refl (hotel : Hotel) (b : GameBoard) : cellsPreserved hotel b b :=
  fun _ _ => Or.inl rfl

theorem cellsPreserved_trans {hotel : Hotel} {b0 b1 b2 : GameBoard}
    (h01 : cellsPreserved hotel b0 b1) (h12 : cellsPreserved hotel b1 b2) :
    cellsPreserved hotel b0 b2 := by
  intro r c
  rcases h12 r c with h | h
  · rw [h]; exact h01 r c
  · right; exact h

theorem cellsPreserved_setCell (hotel : Hotel) (b : GameBoard) (row col : Nat) :
    cellsPreserved hotel b (b.setCell row col (Cell.Hotel hotel)) := by
  intro r c
  rcases @setCell_cells b row col (Cell.Hotel hotel) r c with
    h | ⟨_, _, h⟩
  · left; exact h
  · right; exact h

/-- Flood fill only rewrites cells, and only ever to `Hotel hotel`. -/
theorem fill_pres (hotel : Hotel) :
    ∀ (fuel : Nat) (b : GameBoard) (row col : Nat),
      cellsPreserved hotel b (fill fuel b row col hotel) := by
  intro fuel
  induction fuel with
  | zero => intro b row col; exact cellsPreserved_refl hotel b
  | succ fuel ih =>
    intro b row col
    simp only [fill]
    split
    · exact cellsPreserved_refl hotel b
    · split
      · exact cellsPreserved_refl hotel b
      · exact cellsPreserved_trans
          (cellsPreserved_trans
            (cellsPreserved_trans
              (cellsPreserved_trans (cellsPreserved_setCell hotel b row col) (ih _ _ _))
              (ih _ _ _))
            (ih _ _ _))
          (ih _ _ _)

/-- Flood fill from a non-`Empty` seed paints the seed cell. -/
theorem fill_seed {b : GameBoard} {row col : Nat} (hotel : Hotel) (fuel : Nat)
    (hne : b.get_cell_state row col ≠ Cell.Empty) :
    (fill (fuel + 1) b row col hotel).get_cell_state row col = Cell.Hotel hotel := by
  obtain ⟨h1, h2⟩ := inb_of_ne_empty hne
  simp only [fill]
  split
  · next h => exact absurd h hne
  · split
    · next h => exact h
    · have hpres : cellsPreserved hotel (b.setCell row col (Cell.Hotel hotel))
          (fill fuel
            (fill fuel
              (fill fuel (fill fuel (b.setCell row col (Cell.Hotel hotel)) (row + 1) col hotel)
                (upOf row) col hotel)
              row (col + 1) hotel)
            row (leftOf col) hotel) :=
        cellsPreserved_trans
          (cellsPreserved_trans
            (cellsPreserved_trans (fill_pres hotel fuel _ (row + 1) col)
              (fill_pres hotel fuel _ (upOf row) col))
            (fill_pres hotel fuel _ row (col + 1)))
          (fill_pres hotel fuel _ row (leftOf col))
      rw [get_cell_state_inb _ h1 h2]
      rcases hpres ⟨row, h1⟩ ⟨col, h2⟩ with h | h
      · rw [h, ← get_cell_state_inb _ h1 h2, setCell_get_self h1 h2]
      · exact h

end GameBoard

/-! ## C7: is_cell_playable -/

theorem is_cell_playable_ok {b : GameBoard} {row col : Nat}
    (hnone : b.get_conflict_on_board = none)
    (hog : ¬offGrid row col) (hocc : ¬cellOccupied b row col)
    (hncf : ¬newChainWhileFull b row col) (hsp : ¬adjacentSafePair b row col) :
    b.is_cell_playable row col = .ok true := by
  have hb : row < BOARD_ROWS ∧ col < BOARD_COLS := by unfold offGrid at hog; omega
  have hsafe1 : ((b.get_adjacent_hotels row col).filter fun h =>
      decide (b.get_hotel_chain_size h ≥ SAFE_CHAIN_SIZE)).length ≤ 1 := by
    unfold adjacentSafePair at hsp; omega
  unfold GameBoard.is_cell_playable
  rw [hnone]
  dsimp only
  rw [if_neg (not_not_intro hb)]
  split_ifs with h1 h2 h3 h4
  · simp at h1
  · exact absurd h2 hocc
  · exact absurd h3 hncf
  · exact absurd h4.2 (by omega)
  · rfl

theorem cellRejected_false_conds {b : GameBoard} {row col : Nat}
    (h : cellRejected b row col = false) :
    ¬offGrid row col ∧ ¬cellOccupied b row col ∧ ¬newChainWhileFull b row col ∧
      ¬adjacentSafePair b row col := by
  have hle := List.length_filter_le
    (fun h => decide (b.get_hotel_chain_size h ≥ SAFE_CHAIN_SIZE)) (b.get_adjacent_hotels row col)
  unfold cellRejected at h
  cases hres : b.is_cell_playable row col with
  | error e => rw [hres] at h; simp at h
  | ok v =>
    unfold GameBoard.is_cell_playable at hres
    dsimp only at hres
    split_ifs at hres with h1 h2 h3 h4 h5 <;> try simp at hres
    refine ⟨?_, h3, h4, ?_⟩
    · push_neg at h1
      unfold offGrid
      omega
    · unfold adjacentSafePair
      intro hsp
      exact h5 ⟨by omega, by omega⟩

theorem is_cell_playable_err_of_cond {b : GameBoard} {row col : Nat}
    (h : offGrid row col ∨ cellOccupied b row col ∨ newChainWhileFull b row col ∨
      adjacentSafePair b row col) :
    cellRejected b row col = true := by
  by_contra hr
  obtain ⟨n1, n2, n3, n4⟩ := cellRejected_false_conds (Bool.not_eq_true _ ▸ hr)
  tauto

theorem is_cell_playable_err_iff {b : GameBoard} {row col : Nat}
    (hnone : b.get_conflict_on_board = none) :
    cellRejected b row col = true ↔
      (offGrid row col ∨ cellOccupied b row col ∨ newChainWhileFull b row col ∨
        adjacentSafePair b row col) := by
  constructor
  · intro hrej
    by_contra hnot
    push_neg at hnot
    obtain ⟨n1, n2, n3, n4⟩ := hnot
    unfold cellRejected at hrej
    rw [is_cell_playable_ok hnone n1 n2 n3 n4] at hrej
    simp at hrej
  · exact is_cell_playable_err_of_cond

theorem is_cell_playable_safe_reason {b : GameBoard} {row col : Nat}
    (hnone : b.get_conflict_on_board = none)
    (hgrid : ¬offGrid row col) (hemp : ¬cellOccupied b row col)
    (hsafe : adjacentSafePair b row col) :
    b.is_cell_playable row col = .error .AdjacentHotelsAreSafe := by
  have hle := List.length_filter_le
    (fun h => decide (b.get_hotel_chain_size h ≥ SAFE_CHAIN_SIZE)) (b.get_adjacent_hotels row col)
  have hadj : (b.get_adjacent_hotels row col).length > 1 := by
    unfold adjacentSafePair at hsafe; omega
  have hwould : b.would_cell_start_new_chain row col = false := by
    unfold GameBoard.would_cell_start_new_chain
    simp only [Bool.and_eq_false_iff, beq_eq_false_iff_ne]
    left
    omega
  unfold GameBoard.is_cell_playable
  rw [hnone]
  unfold offGrid at hgrid
  unfold cellOccupied at hemp
  unfold adjacentSafePair at hsafe
  split_ifs with h1 h2 h3 h4 <;> simp_all <;> omega

/-- C7: `is_cell_playable` rejects the illegal placements.  Part 1: each of
the four conditions (off-grid, occupied cell, new chain while all 7 chains
active, two adjacent safe chains) forces a rejection on every board.  Part 2:
on a board with no outstanding conflict cell (the only state in which tiles
may be placed at all), these four conditions are exactly the rejected cells.
Part 3: a tile connecting two chains of size ≥ 11 is rejected specifically
with `AdjacentHotelsAreSafe`. -/
theorem acquire_c7 (b : GameBoard) (row col : Nat) :
    ((offGrid row col ∨ cellOccupied b row col ∨ newChainWhileFull b row col ∨
        adjacentSafePair b row col) → cellRejected b row col = true) ∧
    (b.get_conflict_on_board = none →
      (cellRejected b row col = true ↔
        (offGrid row col ∨ cellOccupied b row col ∨ newChainWhileFull b row col ∨
          adjacentSafePair b row col))) ∧
    (b.get_conflict_on_board = none → ¬offGrid row col → ¬cellOccupied b row col →
      adjacentSafePair b row col →
      b.is_cell_playable row col = .error .AdjacentHotelsAreSafe) :=
  ⟨is_cell_playable_err_of_cond,
   fun hnone => is_cell_playable_err_iff hnone,
   fun hnone hg he hs => is_cell_playable_safe_reason hnone hg he hs⟩

/-- Witness for C7 on `bSafe`: cell (1,0) joins two chains of size 11 and is
rejected with `AdjacentHotelsAreSafe`. -/
theorem acquire_c7_witness :
    (bSafe.get_conflict_on_board = none ∧ ¬offGrid 1 0 ∧ ¬cellOccupied bSafe 1 0 ∧
      adjacentSafePair bSafe 1 0) ∧
    bSafe.is_cell_playable 1 0 = .error .AdjacentHotelsAreSafe := by
  refine ⟨by decide, ?_⟩
  exact (acquire_c7 bSafe 1 0).2.2 (by decide) (by decide) (by decide) (by decide)

/-! ## C8 and C9: place_tile and resolve_conflict -/

theorem is_cell_playable_ok_inv {b : GameBoard} {row col : Nat} {v : Bool}
    (hres : b.is_cell_playable row col = .ok v) :
    (row < BOARD_ROWS ∧ col < BOARD_COLS) ∧ b.get_conflict_on_board = none ∧
      b.get_cell_state row col = Cell.Empty := by
  unfold GameBoard.is_cell_playable at hres
  dsimp only at hres
  split_ifs at hres with h1 h2 h3 h4 h5 <;> try simp at hres
  push_neg at h1 h3
  exact ⟨h1, Option.not_isSome_iff_eq_none.mp (by simpa using h2), h3⟩

theorem conflictCount_setCell_conflict {b : GameBoard} {row col : Nat} {t : CellConflictType}
    (h1 : row < BOARD_ROWS) (h2 : col < BOARD_COLS)
    (hz : ∀ (r : Fin BOARD_ROWS) (c : Fin BOARD_COLS), isConflictCell (b.cells r c) = false) :
    conflictCount (b.setCell row col (Cell.Conflict t)) = 1 := by
  unfold conflictCount
  rw [Finset.card_eq_one]
  refine ⟨(⟨row, h1⟩, ⟨col, h2⟩), ?_⟩
  ext rc
  simp only [Finset.mem_filter, Finset.mem_univ, true_and, Finset.mem_singleton]
  constructor
  · intro hc
    by_contra hne
    have hne2 : ¬((rc.1 : Nat) = row ∧ (rc.2 : Nat) = col) := by
      intro ⟨ha, hb2⟩
      exact hne (Prod.ext (Fin.ext ha) (Fin.ext hb2))
    rw [GameBoard.setCell_cells_of_ne hne2] at hc
    rw [hz rc.1 rc.2] at hc
    exact absurd hc (by simp)
  · intro hrc
    subst hrc
    have hcell : (b.setCell row col (Cell.Conflict t)).cells ⟨row, h1⟩ ⟨col, h2⟩
        = Cell.Conflict t := by
      have := GameBoard.setCell_get_self (b := b) (v := Cell.Conflict t) h1 h2
      rwa [GameBoard.get_cell_state_inb _ h1 h2] at this
    rw [hcell]
    rfl

/-- C8: single-conflict invariant of `place_tile`.  On a board with no
conflict cell: a `Success` result leaves the placed cell non-`Empty`, and a
`ConflictCreated` result leaves exactly one `Conflict` cell on the board.
While a conflict cell exists, every `place_tile` call is rejected and leaves
the board unchanged (so at most one conflict cell ever exists). -/
theorem acquire_c8 (b : GameBoard) (row col : Nat) :
    (b.get_conflict_on_board = none →
      (((b.place_tile row col).1 = .Success →
          (b.place_tile row col).2.get_cell_state row col ≠ Cell.Empty) ∧
        (∀ t, (b.place_tile row col).1 = .ConflictCreated t →
          conflictCount (b.place_tile row col).2 = 1))) ∧
    (b.get_conflict_on_board ≠ none →
      ((b.place_tile row col).1.isRejected = true ∧ (b.place_tile row col).2 = b)) := by
  constructor
  · intro hnone
    unfold GameBoard.place_tile
    cases hres : b.is_cell_playable row col with
    | error e => exact ⟨fun hs => by simp at hs, fun t ht => by simp at ht⟩
    | ok v =>
      obtain ⟨⟨hb1, hb2⟩, _, hemp⟩ := is_cell_playable_ok_inv hres
      have hz := GameBoard.get_conflict_none_iff.mp hnone
      dsimp only
      split_ifs with hw hadj
      · -- NewChain conflict created
        exact ⟨(fun hs => nomatch hs), fun t ht => conflictCount_setCell_conflict hb1 hb2 hz⟩
      · -- Merge conflict created
        exact ⟨(fun hs => nomatch hs), fun t ht => conflictCount_setCell_conflict hb1 hb2 hz⟩
      · -- Success
        cases hadjl : b.get_adjacent_hotels row col with
        | nil =>
          refine ⟨fun _ => ?_, fun t ht => nomatch ht⟩
          rw [GameBoard.setCell_get_self hb1 hb2]
          simp
        | cons hd tl =>
          cases tl with
          | nil =>
            refine ⟨fun _ => ?_, fun t ht => nomatch ht⟩
            have hne : (b.setCell row col Cell.Independent).get_cell_state row col
                ≠ Cell.Empty := by
              rw [GameBoard.setCell_get_self hb1 hb2]; simp
            have hseed := @GameBoard.fill_seed (b.setCell row col Cell.Independent)
              row col hd 108 hne
            unfold GameBoard.flood_hotel
            have hfuel : GameBoard.FLOOD_FUEL = 108 + 1 := rfl
            rw [hfuel, hseed]
            simp
          | cons hd2 tl2 =>
            exfalso
            rw [hadjl] at hadj
            simp at hadj
  · intro hconf
    unfold GameBoard.place_tile
    cases hres : b.is_cell_playable row col with
    | error e => exact ⟨rfl, rfl⟩
    | ok v => exact absurd (is_cell_playable_ok_inv hres).2.1 hconf

/-- Witness for C8: on the empty board, placing at (0,0) succeeds and the
cell is no longer `Empty`; on `bConflict` (one conflict cell) every further
placement is rejected with the board unchanged. -/
theorem acquire_c8_witness :
    (GameBoard.new.get_conflict_on_board = none ∧
      (GameBoard.new.place_tile 0 0).1 = .Success ∧
      (GameBoard.new.place_tile 0 0).2.get_cell_state 0 0 ≠ Cell.Empty) ∧
    (bConflict.get_conflict_on_board ≠ none ∧
      (bConflict.place_tile 2 2).1.isRejected = true ∧
      (bConflict.place_tile 2 2).2 = bConflict) :=
  ⟨⟨by decide, by decide,
    ((acquire_c8 GameBoard.new 0 0).1 (by decide)).1 (by decide)⟩,
   ⟨by decide,
    (acquire_c8 bConflict 2 2).2 (by decide)⟩⟩

/-- Only conflict cell known, all other cells are conflict-free. -/
theorem conflict_unique {b : GameBoard} {rf : Fin BOARD_ROWS} {cf : Fin BOARD_COLS}
    (h1 : conflictCount b = 1) (h2 : isConflictCell (b.cells rf cf) = true) :
    ∀ (r : Fin BOARD_ROWS) (c : Fin BOARD_COLS), ¬(r = rf ∧ c = cf) →
      isConflictCell (b.cells r c) = false := by
  unfold conflictCount at h1
  obtain ⟨a, ha⟩ := Finset.card_eq_one.mp h1
  have hmem : (rf, cf) ∈ Finset.univ.filter
      (fun rc : Fin BOARD_ROWS × Fin BOARD_COLS => isConflictCell (b.cells rc.1 rc.2) = true) := by
    simp [h2]
  rw [ha] at hmem
  have hrfcf : (rf, cf) = a := Finset.mem_singleton.mp hmem
  intro r c hne
  by_contra hcon
  have hcon2 : isConflictCell (b.cells r c) = true := by
    simp at hcon
    simp [hcon]
  have hmem2 : (r, c) ∈ Finset.univ.filter
      (fun rc : Fin BOARD_ROWS × Fin BOARD_COLS => isConflictCell (b.cells rc.1 rc.2) = true) := by
    simp [hcon2]
  rw [ha] at hmem2
  have hpair : (r, c) = (rf, cf) := by
    rw [← hrfcf] at hmem2
    exact Finset.mem_singleton.mp hmem2
  exact hne ⟨congrArg Prod.fst hpair, congrArg Prod.snd hpair⟩

/-- C9: `resolve_conflict` rejects (with an error and an unchanged board) any
chain outside the acceptable set, and whenever it succeeds on a board with
exactly one conflict cell, no conflict cell remains afterwards. -/
theorem acquire_c9 (b : GameBoard) (hotel : Hotel) :
    (∀ acc, b.acceptable_conflict_resolutions = some acc → hotel ∉ acc →
      b.resolve_conflict hotel = (.invalid ("Hotel is not an acceptable resolution"), b)) ∧
    (conflictCount b = 1 → ∀ b1, b.resolve_conflict hotel = (.ok (), b1) →
      conflictCount b1 = 0) := by
  constructor
  · intro acc hacc hmem
    unfold GameBoard.resolve_conflict
    rw [hacc]
    dsimp only
    rw [if_neg hmem]
  · intro hcnt b1 hres
    unfold GameBoard.resolve_conflict at hres
    cases hacc : b.acceptable_conflict_resolutions with
    | none => rw [hacc] at hres; exact absurd hres (by simp)
    | some acc =>
      rw [hacc] at hres
      dsimp only at hres
      split_ifs at hres with hmem
      · cases hconf : b.get_conflict_on_board with
        | none => rw [hconf] at hres; exact absurd hres (by simp)
        | some rct =>
          obtain ⟨row, col, t⟩ := rct
          rw [hconf] at hres
          dsimp only at hres
          have hcell := GameBoard.get_conflict_some hconf
          obtain ⟨hb1, hb2⟩ := GameBoard.inb_of_ne_empty (b := b) (r := row) (c := col)
            (by rw [hcell]; simp)
          have hb1eq : b1 = b.flood_hotel row col hotel := (congrArg Prod.snd hres).symm
          subst hb1eq
          rw [GameBoard.conflictCount_eq_zero_iff]
          intro r c
          by_cases hseedrc : r = (⟨row, hb1⟩ : Fin BOARD_ROWS) ∧ c = (⟨col, hb2⟩ : Fin BOARD_COLS)
          · obtain ⟨hr, hc⟩ := hseedrc
            subst hr; subst hc
            have hseed := @GameBoard.fill_seed b row col hotel 108
              (by rw [hcell]; simp)
            have hfuel : GameBoard.FLOOD_FUEL = 108 + 1 := rfl
            have hcells : (b.flood_hotel row col hotel).cells ⟨row, hb1⟩ ⟨col, hb2⟩
                = Cell.Hotel hotel := by
              rw [← GameBoard.get_cell_state_inb _ hb1 hb2]
              unfold GameBoard.flood_hotel
              rw [hfuel]
              exact hseed
            rw [hcells]
            rfl
          · have hcconf : isConflictCell (b.cells ⟨row, hb1⟩ ⟨col, hb2⟩) = true := by
              rw [← GameBoard.get_cell_state_inb _ hb1 hb2, hcell]
              rfl
            have hothers := conflict_unique hcnt hcconf r c hseedrc
            rcases GameBoard.fill_pres hotel GameBoard.FLOOD_FUEL b row col r c with hp | hp
            · unfold GameBoard.flood_hotel
              rw [hp]
              exact hothers
            · unfold GameBoard.flood_hotel
              rw [hp]
              rfl
      · exact absurd hres (by simp)

/-- Witness for C9: part 1 on `bC3`, whose acceptable set is `[Luxor]` —
resolving to American is rejected with the board unchanged; part 2 on `bC9` —
resolving its single conflict to Tower succeeds and no conflict remains. -/
theorem acquire_c9_witness :
    (bC3.acceptable_conflict_resolutions = some [Hotel.Luxor] ∧
      Hotel.American ∉ [Hotel.Luxor] ∧
      bC3.resolve_conflict Hotel.American =
        (.invalid ("Hotel is not an acceptable resolution"), bC3)) ∧
    (conflictCount bC9 = 1 ∧
      bC9.resolve_conflict Hotel.Tower = (.ok (), (bC9.resolve_conflict Hotel.Tower).2) ∧
      conflictCount (bC9.resolve_conflict Hotel.Tower).2 = 0) :=
  ⟨⟨by decide, by decide,
    (acquire_c9 bC3 Hotel.American).1 [Hotel.Luxor] (by decide) (by decide)⟩,
   ⟨by decide, by decide,
    (acquire_c9 bC9 Hotel.Tower).2 (by decide) _ (by decide)⟩⟩

/-! ## C5: payout folding and splitting -/

/-- C5: whenever the minority set computed by the classification loop is
empty or the majority set has more than one member, `pay_out_defunct_chain`
folds the minority bonus into the majority bonus and performs no minority
distribution: the whole call equals a single `distribute_payouts_array` of
majority-bonus + minority-bonus over the majority set (which splits it by
floor division, the remainder staying undistributed).  In the spec's concrete
scenario (`gC5`: two players with 3 and 3 shares of a Tower chain priced at
$400, bonuses $4000/$2000), each player receives exactly $3000 and the
minority payout is $0. -/
theorem acquire_c5 :
    (∀ (g : AcquireGame) (defunct : Hotel) (majI minI : List Int) (majc minc : Nat),
      AcquireGame.classify_go defunct (AcquireGame.max_second_scan defunct g.players).1
          (AcquireGame.max_second_scan defunct g.players).2 g.players 0
          (List.replicate 6 (-1)) (List.replicate 6 (-1)) 0 0 = some (majI, minI, majc, minc) →
      (minc = 0 ∨ majc > 1) →
      AcquireGame.pay_out_defunct_chain defunct g =
        (Outc.ok (), AcquireGame.distribute_payouts_array majI majc
          (defunct.get_majority_holder_bonus (g.board.get_hotel_chain_size defunct) +
            defunct.get_minority_holder_bonus (g.board.get_hotel_chain_size defunct)) g)) ∧
    ((AcquireGame.pay_out_defunct_chain Hotel.Tower gC5).1 = Outc.ok () ∧
      (AcquireGame.pay_out_defunct_chain Hotel.Tower gC5).2.players.map Player.cash
        = [9000, 9000] ∧
      Hotel.Tower.get_majority_holder_bonus 4 = 4000 ∧
      Hotel.Tower.get_minority_holder_bonus 4 = 2000) := by
  constructor
  · intro g defunct majI minI majc minc hclass hcond
    unfold AcquireGame.pay_out_defunct_chain
    dsimp only
    rw [hclass]
    dsimp only
    rw [if_pos hcond, if_pos hcond]
    simp
  · exact ⟨by decide, by decide, by decide, by decide⟩

/-- Witness for C5: on `gC5` the classification yields a two-member majority
set and an empty minority set, and the call collapses to one folded
majority distribution. -/
theorem acquire_c5_witness :
    (AcquireGame.classify_go Hotel.Tower
        (AcquireGame.max_second_scan Hotel.Tower gC5.players).1
        (AcquireGame.max_second_scan Hotel.Tower gC5.players).2 gC5.players 0
        (List.replicate 6 (-1)) (List.replicate 6 (-1)) 0 0
      = some ([0, 1, -1, -1, -1, -1], List.replicate 6 (-1), 2, 0)) ∧
    ((0 : Nat) = 0 ∨ (2 : Nat) > 1) ∧
    AcquireGame.pay_out_defunct_chain Hotel.Tower gC5 =
      (Outc.ok (), AcquireGame.distribute_payouts_array [0, 1, -1, -1, -1, -1] 2
        (Hotel.Tower.get_majority_holder_bonus (gC5.board.get_hotel_chain_size Hotel.Tower) +
          Hotel.Tower.get_minority_holder_bonus (gC5.board.get_hotel_chain_size Hotel.Tower))
        gC5) :=
  ⟨by decide, by decide,
   acquire_c5.1 gC5 Hotel.Tower [0, 1, -1, -1, -1, -1] (List.replicate 6 (-1)) 2 0
     (by decide) (by decide)⟩

/-! ## C4: atomicity on failure -/

namespace AcquireGame

theorem ni_take_random (choose : List Tile → Option Tile) (g : AcquireGame) :
    ((take_random_tile choose g).1).isInvalid = false := by
  unfold take_random_tile
  cases choose g.available_tiles <;> rfl

theorem ni_give_player_tile (choose : List Tile → Option Tile) (player : Nat)
    (g : AcquireGame) : ((give_player_tile choose player g).1).isInvalid = false := by
  unfold give_player_tile
  rcases h : take_random_tile choose g with ⟨o, g1⟩
  have hni := ni_take_random choose g
  rw [h] at hni
  cases o with
  | ok t => dsimp only; cases h2 : g1.players.get? player <;> rfl
  | invalid m => simp [Outc.isInvalid] at hni
  | panicked => rfl

theorem ni_end_turn (choose : List Tile → Option Tile) (player : Nat) (g : AcquireGame) :
    ((end_turn choose player g).1).isInvalid = false := by
  unfold end_turn
  rcases h : give_player_tile choose player g with ⟨o, g1⟩
  have hni := ni_give_player_tile choose player g
  rw [h] at hni
  cases o with
  | ok a => dsimp only; split_ifs <;> rfl
  | invalid m => simp [Outc.isInvalid] at hni
  | panicked => rfl

theorem ni_give_player_stock (hotel : Hotel) (player shares : Nat) (g : AcquireGame) :
    ((give_player_stock hotel player shares g).1).isInvalid = false := by
  unfold give_player_stock
  split_ifs
  · rfl
  · cases g.players.get? player <;> rfl

theorem ni_sell_off (hotel : Hotel) (player shares : Nat) (g : AcquireGame) :
    ((sell_off_players_stock hotel player shares g).1).isInvalid = false := by
  unfold sell_off_players_stock
  cases g.players.get? player with
  | none => rfl
  | some p => dsimp only; split_ifs <;> rfl

theorem ni_take_back (hotel : Hotel) (player shares : Nat) (g : AcquireGame) :
    ((take_back_players_stock hotel player shares g).1).isInvalid = false := by
  unfold take_back_players_stock
  cases g.players.get? player with
  | none => rfl
  | some p => dsimp only; split_ifs <;> rfl

theorem ni_pay_out (defunct : Hotel) (g : AcquireGame) :
    ((pay_out_defunct_chain defunct g).1).isInvalid = false := by
  unfold pay_out_defunct_chain
  dsimp only
  cases classify_go defunct (max_second_scan defunct g.players).1
      (max_second_scan defunct g.players).2 g.players 0
      (List.replicate 6 (-1)) (List.replicate 6 (-1)) 0 0 with
  | none => rfl
  | some q => rfl

theorem ni_begin_disposal (defunct : Hotel) (g : AcquireGame) :
    ((begin_stock_disposal defunct g).1).isInvalid = false := by
  unfold begin_stock_disposal
  cases g.current_state <;> rfl

theorem ni_handle_defunct (defunct : Hotel) (g : AcquireGame) :
    ((handle_defunct_hotel defunct g).1).isInvalid = false := by
  unfold handle_defunct_hotel
  cases hs : g.current_state <;> try rfl
  rcases h : pay_out_defunct_chain defunct g with ⟨o, g1⟩
  have hni := ni_pay_out defunct g
  rw [h] at hni
  cases o with
  | ok a => exact ni_begin_disposal defunct g1
  | invalid m => simp [Outc.isInvalid] at hni
  | panicked => rfl

theorem ni_determine_next (g : AcquireGame) :
    ((determine_next_defunct_hotel g).1).isInvalid = false := by
  unfold determine_next_defunct_hotel
  cases hs : g.current_state <;> try rfl
  next ms =>
    dsimp only
    cases ms.get_largest_defunct_chains g.board with
    | none => rfl
    | some l =>
      match l with
      | [] => rfl
      | [d] => exact ni_handle_defunct d g
      | d1 :: d2 :: rest => rfl

theorem ni_start_buy (choose : List Tile → Option Tile) (player : Nat) (g : AcquireGame) :
    ((start_buy_stock_phase choose player g).1).isInvalid = false := by
  unfold start_buy_stock_phase
  dsimp only
  split_ifs
  · exact ni_end_turn choose player g
  · exact ni_end_turn choose player g
  · rfl

theorem ni_start_merge (maker : Nat) (survivor : Hotel) (g : AcquireGame) :
    ((start_merge_phase maker survivor g).1).isInvalid = false := by
  unfold start_merge_phase
  cases hc : g.board.get_conflict_on_board with
  | none => rfl
  | some rct =>
    obtain ⟨row, col, t⟩ := rct
    cases t with
    | NewChain => rfl
    | Merge n => exact ni_determine_next _

theorem ni_continue_merge (choose : List Tile → Option Tile) (maker : Nat)
    (survivor : Hotel) (g : AcquireGame) :
    ((continue_merge_phase choose maker survivor g).1).isInvalid = false := by
  unfold continue_merge_phase
  cases hc : g.board.get_conflict_on_board with
  | none => rfl
  | some rct =>
    obtain ⟨row, col, t⟩ := rct
    cases t with
    | NewChain => rfl
    | Merge n =>
      dsimp only
      split_ifs
      · rcases h : g.board.resolve_conflict survivor with ⟨o, b1⟩
        cases o with
        | ok a => exact ni_start_buy choose maker _
        | invalid m => exact ni_start_buy choose maker _
        | panicked => rfl
      · exact ni_determine_next _

theorem ni_finish_dispose (choose : List Tile → Option Tile) (defunct : Hotel)
    (maker : Nat) (survivor : Hotel) (next_phase : Bool) (g : AcquireGame) :
    ((finish_dispose choose defunct maker survivor next_phase g).1).isInvalid = false := by
  unfold finish_dispose
  split_ifs
  · exact ni_continue_merge choose maker survivor _
  · rfl

theorem ni_give_tiles_loop (choose : List Tile → Option Tile) :
    ∀ (l : List Nat) (g : AcquireGame), ((give_tiles_loop choose l g).1).isInvalid = false := by
  intro l
  induction l with
  | nil => intro g; rfl
  | cons i rest ih =>
    intro g
    unfold give_tiles_loop
    rcases h : give_player_tile choose i g with ⟨o, g1⟩
    have hni := ni_give_player_tile choose i g
    rw [h] at hni
    cases o with
    | ok a => exact ih g1
    | invalid m => simp [Outc.isInvalid] at hni
    | panicked => rfl

theorem ni_game_start_complete (choose : List Tile → Option Tile) (g : AcquireGame) :
    ((handle_game_start_complete choose g).1).isInvalid = false := by
  unfold handle_game_start_complete
  cases hs : g.current_state <;> try rfl
  next gss =>
    dsimp only
    rcases h : give_tiles_loop choose
        ((List.range 6).flatMap fun _ => List.range g.players.length) g with ⟨o, g1⟩
    have hni := ni_give_tiles_loop choose
      ((List.range 6).flatMap fun _ => List.range g.players.length) g
    rw [h] at hni
    cases o with
    | ok a => rfl
    | invalid m => simp [Outc.isInvalid] at hni
    | panicked => rfl

theorem ni_starting_tile (choose : List Tile → Option Tile) (tile : Tile) (player : Nat)
    (g : AcquireGame) :
    ((handle_starting_tile_response choose tile player g).1).isInvalid = false := by
  unfold handle_starting_tile_response
  cases hs : g.current_state
  case GameStart gss =>
    dsimp only
    split_ifs <;> first | rfl | exact ni_game_start_complete choose _
  all_goals dsimp only
  all_goals split_ifs <;> rfl

end AcquireGame

namespace AcquireGame

theorem ni_remove_tile (tile : Tile) (player : Nat) (g : AcquireGame) :
    ((remove_tile_from_hand tile player g).1).isInvalid = false := by
  unfold remove_tile_from_hand
  cases g.players.get? player <;> rfl

theorem place_tile_notplayable_eq {b : GameBoard} {row col : Nat}
    {e : CellNotPlayableReason} {b2 : GameBoard}
    (h : b.place_tile row col = (.CellNotPlayable e, b2)) : b2 = b := by
  unfold GameBoard.place_tile at h
  cases hres : b.is_cell_playable row col with
  | error e2 =>
    rw [hres] at h
    injection h with hh1 hh2
    exact hh2.symm
  | ok v =>
    rw [hres] at h
    dsimp only at h
    split_ifs at h <;>
      first
        | (exact absurd h (by simp))
        | (split at h <;> exact absurd h (by simp))

theorem no_inv_pair {α : Type} {o : Outc α} {g2 g1 : AcquireGame} {m : String}
    (h : (o, g2) = (Outc.invalid m, g1)) (ho : o.isInvalid = false) : False := by
  injection h with h1 h2
  rw [h1] at ho
  simp [Outc.isInvalid] at ho

theorem inv_handle_tile (choose : List Tile → Option Tile) (tile : Tile) (player : Nat) :
    ∀ (g : AcquireGame) (m : String) (g1 : AcquireGame),
      handle_tile_response choose tile player g = (.invalid m, g1) → g1 = g := by
  intro g m g1 h
  unfold handle_tile_response at h
  split at h
  · exact (no_inv_pair h rfl).elim
  · split at h
    · exact (no_inv_pair h rfl).elim
    · split at h
      · next hp =>
        exact (no_inv_pair h rfl).elim
      · next pl hp =>
        split at h
        · exact (no_inv_pair h rfl).elim
        · dsimp only at h
          rcases hpt : g.board.place_tile tile.row tile.col with ⟨res, b2⟩
          rw [hpt] at h
          dsimp only at h
          cases res with
          | CellNotPlayable reason =>
            have hb2 : b2 = g.board := place_tile_notplayable_eq hpt
            injection h with hh1 hh2
            rw [← hh2, hb2]
          | Success =>
            rcases hsb : start_buy_stock_phase choose player { g with board := b2 } with ⟨o, g2⟩
            rw [hsb] at h
            have hni := ni_start_buy choose player { g with board := b2 }
            rw [hsb] at hni
            cases o with
            | ok a =>
              dsimp only at h
              have hni2 := ni_remove_tile tile player g2
              rw [h] at hni2
              simp [Outc.isInvalid] at hni2
            | invalid m2 => simp [Outc.isInvalid] at hni
            | panicked => exact (no_inv_pair h rfl).elim
          | ConflictCreated ct =>
            cases ct with
            | NewChain =>
              dsimp only at h
              have hni2 := ni_remove_tile tile player
                { g with board := b2, current_request := .ChooseNewChain player }
              rw [h] at hni2
              simp [Outc.isInvalid] at hni2
            | Merge n =>
              dsimp only at h
              cases hacc : ({ g with board := b2 } : AcquireGame).board.acceptable_conflict_resolutions with
              | none => rw [hacc] at h; exact (no_inv_pair h rfl).elim
              | some largest =>
                rw [hacc] at h
                dsimp only at h
                cases largest with
                | nil =>
                  dsimp only at h
                  have hni2 := ni_remove_tile tile player
                    { g with board := b2, current_request := .ChooseMergerSurvivor player }
                  rw [h] at hni2
                  simp [Outc.isInvalid] at hni2
                | cons s1 rest =>
                  cases rest with
                  | nil =>
                    dsimp only at h
                    rcases hsm : start_merge_phase player s1 { g with board := b2 } with ⟨o, g2⟩
                    rw [hsm] at h
                    have hni := ni_start_merge player s1 { g with board := b2 }
                    rw [hsm] at hni
                    cases o with
                    | ok a =>
                      dsimp only at h
                      have hni2 := ni_remove_tile tile player g2
                      rw [h] at hni2
                      simp [Outc.isInvalid] at hni2
                    | invalid m2 => simp [Outc.isInvalid] at hni
                    | panicked => exact (no_inv_pair h rfl).elim
                  | cons s2 rest2 =>
                    dsimp only at h
                    have hni2 := ni_remove_tile tile player
                      { g with board := b2, current_request := .ChooseMergerSurvivor player }
                    rw [h] at hni2
                    simp [Outc.isInvalid] at hni2

theorem inv_handle_new_chain (choose : List Tile → Option Tile) (hotel : Hotel) (player : Nat) :
    ∀ (g : AcquireGame) (m : String) (g1 : AcquireGame),
      handle_new_chain_response choose hotel player g = (.invalid m, g1) → g1 = g := by
  intro g m g1 h
  unfold handle_new_chain_response at h
  split at h
  · injection h with hh1 hh2; exact hh2.symm
  · rcases hrc : g.board.resolve_conflict hotel with ⟨o, b1⟩
    try rw [hrc] at h
    cases o with
    | panicked => dsimp only at h; exact (no_inv_pair h rfl).elim
    | ok a =>
      dsimp only at h
      split at h
      · rcases hgs : give_player_stock hotel player 1 { g with board := b1 } with ⟨o2, g2⟩
        try rw [hgs] at h
        have hni := ni_give_player_stock hotel player 1 { g with board := b1 }
        rw [hgs] at hni
        cases o2 with
        | ok a2 =>
          dsimp only at h
          have hni2 := ni_start_buy choose player g2
          rw [h] at hni2
          simp [Outc.isInvalid] at hni2
        | invalid m2 => simp [Outc.isInvalid] at hni
        | panicked => dsimp only at h; exact (no_inv_pair h rfl).elim
      · have hni2 := ni_start_buy choose player { g with board := b1 }
        rw [h] at hni2
        simp [Outc.isInvalid] at hni2
    | invalid m0 =>
      dsimp only at h
      split at h
      · rcases hgs : give_player_stock hotel player 1 { g with board := b1 } with ⟨o2, g2⟩
        try rw [hgs] at h
        have hni := ni_give_player_stock hotel player 1 { g with board := b1 }
        rw [hgs] at hni
        cases o2 with
        | ok a2 =>
          dsimp only at h
          have hni2 := ni_start_buy choose player g2
          rw [h] at hni2
          simp [Outc.isInvalid] at hni2
        | invalid m2 => simp [Outc.isInvalid] at hni
        | panicked => dsimp only at h; exact (no_inv_pair h rfl).elim
      · have hni2 := ni_start_buy choose player { g with board := b1 }
        rw [h] at hni2
        simp [Outc.isInvalid] at hni2


theorem inv_handle_dispose (choose : List Tile → Option Tile) (choice : DisposeStockChoice)
    (player : Nat) :
    ∀ (g : AcquireGame) (m : String) (g1 : AcquireGame),
      handle_dispose_stock_response choose choice player g = (.invalid m, g1) → g1 = g := by
  intro g m g1 h
  cases hs : g.current_state
  case DisposeStock ds =>
    cases choice
    case Keep =>
      unfold handle_dispose_stock_response at h
      rw [hs] at h
      dsimp only at h
      cases hrem : ds.remaining_shares_per_player.get? player with
      | none => rw [hrem] at h; exact (no_inv_pair h rfl).elim
      | some r =>
        rw [hrem] at h
        try dsimp only at h
        by_cases hc1 : r = 0
        · rw [if_pos hc1] at h; injection h with hh1 hh2; exact hh2.symm
        · rw [if_neg hc1] at h
          try dsimp only at h
          try rw [if_neg (show ¬(1 > r) by omega)] at h
          try rw [if_neg (show ¬(1 = 0) by decide)] at h
          try dsimp only at h
          cases hph : ds.player_handled_stock player 1 with
          | none => rw [hph] at h; exact (no_inv_pair h rfl).elim
          | some pr =>
            obtain ⟨ds1, np⟩ := pr
            rw [hph] at h
            try dsimp only at h
            have hni := ni_finish_dispose choose ds.defunct_chain ds.merge_maker ds.surviving_chain np
              { g with current_state := .DisposeStock ds1 }
            rw [h] at hni
            simp [Outc.isInvalid] at hni
    case Sell =>
      unfold handle_dispose_stock_response at h
      rw [hs] at h
      dsimp only at h
      cases hrem : ds.remaining_shares_per_player.get? player with
      | none => rw [hrem] at h; exact (no_inv_pair h rfl).elim
      | some r =>
        rw [hrem] at h
        try dsimp only at h
        by_cases hc1 : r = 0
        · rw [if_pos hc1] at h; injection h with hh1 hh2; exact hh2.symm
        · rw [if_neg hc1] at h
          try dsimp only at h
          try rw [if_neg (show ¬(1 > r) by omega)] at h
          try rw [if_neg (show ¬(1 = 0) by decide)] at h
          try dsimp only at h
          cases hph : ds.player_handled_stock player 1 with
          | none => rw [hph] at h; exact (no_inv_pair h rfl).elim
          | some pr =>
            obtain ⟨ds1, np⟩ := pr
            rw [hph] at h
            try dsimp only at h
            cases hso : sell_off_players_stock ds.defunct_chain player 1
                { g with current_state := .DisposeStock ds1 } with
            | mk o2 g2 =>
              rw [hso] at h
              have hnis := ni_sell_off ds.defunct_chain player 1
                { g with current_state := .DisposeStock ds1 }
              rw [hso] at hnis
              cases o2 with
              | ok a2 =>
                try dsimp only at h
                have hni := ni_finish_dispose choose ds.defunct_chain ds.merge_maker
                  ds.surviving_chain np g2
                rw [h] at hni
                simp [Outc.isInvalid] at hni
              | invalid m2 => simp [Outc.isInvalid] at hnis
              | panicked => exact (no_inv_pair h rfl).elim
    case Trade =>
      unfold handle_dispose_stock_response at h
      rw [hs] at h
      dsimp only at h
      cases hrem : ds.remaining_shares_per_player.get? player with
      | none => rw [hrem] at h; exact (no_inv_pair h rfl).elim
      | some r =>
        rw [hrem] at h
        try dsimp only at h
        by_cases hc1 : r = 0
        · rw [if_pos hc1] at h; injection h with hh1 hh2; exact hh2.symm
        · rw [if_neg hc1] at h
          try dsimp only at h
          by_cases hc2 : 2 > r
          · rw [if_pos hc2] at h; injection h with hh1 hh2; exact hh2.symm
          · rw [if_neg hc2] at h
            try rw [if_neg (show ¬(2 = 0) by decide)] at h
            try dsimp only at h
            split at h
            · injection h with hh1 hh2; exact hh2.symm
            · cases hph : ds.player_handled_stock player (2) with
              | none => rw [hph] at h; exact (no_inv_pair h rfl).elim
              | some pr =>
                obtain ⟨ds1, np⟩ := pr
                rw [hph] at h
                try dsimp only at h
                cases hgs : give_player_stock ds.surviving_chain player (2 / 2)
                    { g with current_state := .DisposeStock ds1 } with
                | mk o2 g2 =>
                  rw [hgs] at h
                  have hnig := ni_give_player_stock ds.surviving_chain player (2 / 2)
                    { g with current_state := .DisposeStock ds1 }
                  rw [hgs] at hnig
                  cases o2 with
                  | ok a2 =>
                    try dsimp only at h
                    cases htb : take_back_players_stock ds.defunct_chain player (2) g2 with
                    | mk o3 g3 =>
                      rw [htb] at h
                      have hnit := ni_take_back ds.defunct_chain player (2) g2
                      rw [htb] at hnit
                      cases o3 with
                      | ok a3 =>
                        try dsimp only at h
                        have hni := ni_finish_dispose choose ds.defunct_chain ds.merge_maker
                          ds.surviving_chain np g3
                        rw [h] at hni
                        simp [Outc.isInvalid] at hni
                      | invalid m3 => simp [Outc.isInvalid] at hnit
                      | panicked => exact (no_inv_pair h rfl).elim
                  | invalid m2 => simp [Outc.isInvalid] at hnig
                  | panicked => exact (no_inv_pair h rfl).elim
    case SellAll =>
      unfold handle_dispose_stock_response at h
      rw [hs] at h
      dsimp only at h
      cases hrem : ds.remaining_shares_per_player.get? player with
      | none => rw [hrem] at h; exact (no_inv_pair h rfl).elim
      | some r =>
        rw [hrem] at h
        try dsimp only at h
        by_cases hc1 : r = 0
        · rw [if_pos hc1] at h; injection h with hh1 hh2; exact hh2.symm
        · rw [if_neg hc1] at h
          try dsimp only at h
          try rw [if_neg (show ¬(r > r) by omega)] at h
          try rw [if_neg hc1] at h
          try dsimp only at h
          cases hph : ds.player_handled_stock player r with
          | none => rw [hph] at h; exact (no_inv_pair h rfl).elim
          | some pr =>
            obtain ⟨ds1, np⟩ := pr
            rw [hph] at h
            try dsimp only at h
            cases hso : sell_off_players_stock ds.defunct_chain player r
                { g with current_state := .DisposeStock ds1 } with
            | mk o2 g2 =>
              rw [hso] at h
              have hnis := ni_sell_off ds.defunct_chain player r
                { g with current_state := .DisposeStock ds1 }
              rw [hso] at hnis
              cases o2 with
              | ok a2 =>
                try dsimp only at h
                have hni := ni_finish_dispose choose ds.defunct_chain ds.merge_maker
                  ds.surviving_chain np g2
                rw [h] at hni
                simp [Outc.isInvalid] at hni
              | invalid m2 => simp [Outc.isInvalid] at hnis
              | panicked => exact (no_inv_pair h rfl).elim
    case KeepAll =>
      unfold handle_dispose_stock_response at h
      rw [hs] at h
      dsimp only at h
      cases hrem : ds.remaining_shares_per_player.get? player with
      | none => rw [hrem] at h; exact (no_inv_pair h rfl).elim
      | some r =>
        rw [hrem] at h
        try dsimp only at h
        by_cases hc1 : r = 0
        · rw [if_pos hc1] at h; injection h with hh1 hh2; exact hh2.symm
        · rw [if_neg hc1] at h
          try dsimp only at h
          try rw [if_neg (show ¬(r > r) by omega)] at h
          try rw [if_neg hc1] at h
          try dsimp only at h
          cases hph : ds.player_handled_stock player 1 with
          | none => rw [hph] at h; exact (no_inv_pair h rfl).elim
          | some pr =>
            obtain ⟨ds1, np⟩ := pr
            rw [hph] at h
            try dsimp only at h
            have hni := ni_finish_dispose choose ds.defunct_chain ds.merge_maker ds.surviving_chain np
              { g with current_state := .DisposeStock ds1 }
            rw [h] at hni
            simp [Outc.isInvalid] at hni
    case TradeAll =>
      unfold handle_dispose_stock_response at h
      rw [hs] at h
      dsimp only at h
      cases hrem : ds.remaining_shares_per_player.get? player with
      | none => rw [hrem] at h; exact (no_inv_pair h rfl).elim
      | some r =>
        rw [hrem] at h
        try dsimp only at h
        by_cases hc1 : r = 0
        · rw [if_pos hc1] at h; injection h with hh1 hh2; exact hh2.symm
        · rw [if_neg hc1] at h
          try dsimp only at h
          try rw [if_neg (show ¬(r / 2 * 2 > r) by omega)] at h
          by_cases hc3 : r / 2 * 2 = 0
          · rw [if_pos hc3] at h; injection h with hh1 hh2; exact hh2.symm
          · rw [if_neg hc3] at h
            try dsimp only at h
            split at h
            · injection h with hh1 hh2; exact hh2.symm
            · cases hph : ds.player_handled_stock player (r / 2 * 2) with
              | none => rw [hph] at h; exact (no_inv_pair h rfl).elim
              | some pr =>
                obtain ⟨ds1, np⟩ := pr
                rw [hph] at h
                try dsimp only at h
                cases hgs : give_player_stock ds.surviving_chain player (r / 2 * 2 / 2)
                    { g with current_state := .DisposeStock ds1 } with
                | mk o2 g2 =>
                  rw [hgs] at h
                  have hnig := ni_give_player_stock ds.surviving_chain player (r / 2 * 2 / 2)
                    { g with current_state := .DisposeStock ds1 }
                  rw [hgs] at hnig
                  cases o2 with
                  | ok a2 =>
                    try dsimp only at h
                    cases htb : take_back_players_stock ds.defunct_chain player (r / 2 * 2) g2 with
                    | mk o3 g3 =>
                      rw [htb] at h
                      have hnit := ni_take_back ds.defunct_chain player (r / 2 * 2) g2
                      rw [htb] at hnit
                      cases o3 with
                      | ok a3 =>
                        try dsimp only at h
                        have hni := ni_finish_dispose choose ds.defunct_chain ds.merge_maker
                          ds.surviving_chain np g3
                        rw [h] at hni
                        simp [Outc.isInvalid] at hni
                      | invalid m3 => simp [Outc.isInvalid] at hnit
                      | panicked => exact (no_inv_pair h rfl).elim
                  | invalid m2 => simp [Outc.isInvalid] at hnig
                  | panicked => exact (no_inv_pair h rfl).elim
  all_goals
    unfold handle_dispose_stock_response at h
    rw [hs] at h
    try dsimp only at h
  all_goals exact (no_inv_pair h rfl).elim

theorem inv_handle_buy (choose : List Tile → Option Tile) (choice : BuyStockChoice) :
    ∀ (g : AcquireGame) (m : String) (g1 : AcquireGame),
      handle_buy_stock_response choose choice g = (.invalid m, g1) → g1 = g := by
  intro g m g1 h
  cases hs : g.current_state
  case BuyStock bs =>
    unfold handle_buy_stock_response at h
    rw [hs] at h
    try dsimp only at h
    cases choice with
    | Pass =>
      try dsimp only at h
      have hni := ni_end_turn choose bs.player g
      rw [h] at hni
      simp [Outc.isInvalid] at hni
    | Buy hotel =>
      try dsimp only at h
      split at h
      · injection h with hh1 hh2; exact hh2.symm
      · cases hp : g.players.get? bs.player with
        | none => rw [hp] at h; exact (no_inv_pair h rfl).elim
        | some p =>
          rw [hp] at h
          try dsimp only at h
          split at h
          · injection h with hh1 hh2; exact hh2.symm
          · split at h
            · injection h with hh1 hh2; exact hh2.symm
            · split at h
              · exact (no_inv_pair h rfl).elim
              · try dsimp only at h
                split at h
                · rename_i a3 g3 heq
                  split at h
                  · have hni := ni_end_turn choose bs.player g3
                    rw [h] at hni
                    simp [Outc.isInvalid] at hni
                  · exact (no_inv_pair h rfl).elim
                · have hni := congrArg (fun p => Outc.isInvalid p.1) h
                  dsimp only at hni
                  rw [ni_give_player_stock] at hni
                  simp [Outc.isInvalid] at hni
  all_goals
    unfold handle_buy_stock_response at h
    rw [hs] at h
    try dsimp only at h
  all_goals exact (no_inv_pair h rfl).elim

theorem inv_handle_player_response (choose : List Tile → Option Tile) :
    ∀ (g : AcquireGame) (r : AcquireResponse) (m : String) (g1 : AcquireGame),
      handle_player_response choose g r = (.invalid m, g1) → g1 = g := by
  intro g r m g1 h
  unfold handle_player_response at h
  cases hq : g.current_request
  all_goals rw [hq] at h
  all_goals try dsimp only at h
  case PlayStartingTile player =>
    cases r
    case StartingTile =>
      try dsimp only at h
      cases hTR : take_random_tile choose g with
      | mk o g2 =>
        rw [hTR] at h
        have hnit := ni_take_random choose g
        rw [hTR] at hnit
        cases o with
        | ok t =>
          try dsimp only at h
          have hni := ni_starting_tile choose t player g2
          rw [h] at hni
          simp [Outc.isInvalid] at hni
        | invalid m0 => simp [Outc.isInvalid] at hnit
        | panicked => exact (no_inv_pair h rfl).elim
    all_goals try dsimp only at h
    all_goals injection h with hh1 hh2; exact hh2.symm
  case PlayTile player =>
    cases r
    case Tile t => exact inv_handle_tile choose t player g m g1 h
    all_goals try dsimp only at h
    all_goals injection h with hh1 hh2; exact hh2.symm
  case ChooseNewChain player =>
    cases r
    case NewChain hotel => exact inv_handle_new_chain choose hotel player g m g1 h
    all_goals try dsimp only at h
    all_goals injection h with hh1 hh2; exact hh2.symm
  case ChooseMergerSurvivor player =>
    cases r
    case MergerSurvivor hotel =>
      try dsimp only at h
      try unfold handle_merger_survivor_response at h
      have hni := ni_start_merge player hotel g
      rw [h] at hni
      simp [Outc.isInvalid] at hni
    all_goals try dsimp only at h
    all_goals injection h with hh1 hh2; exact hh2.symm
  case ChooseDefunctChainToResolve player =>
    cases r
    case DefunctChainToResolve hotel =>
      try dsimp only at h
      try unfold handle_defunct_chain_response at h
      have hni := ni_handle_defunct hotel g
      rw [h] at hni
      simp [Outc.isInvalid] at hni
    all_goals try dsimp only at h
    all_goals injection h with hh1 hh2; exact hh2.symm
  case DisposeStock =>
    cases r
    case DisposeStock p c => exact inv_handle_dispose choose c p g m g1 h
    all_goals try dsimp only at h
    all_goals injection h with hh1 hh2; exact hh2.symm
  case BuyStock player =>
    cases r
    case BuyStock c => exact inv_handle_buy choose c g m g1 h
    all_goals try dsimp only at h
    all_goals injection h with hh1 hh2; exact hh2.symm
  case EndGame player =>
    cases r
    case EndGame q =>
      try dsimp only at h
      try unfold handle_end_game_response at h
      exact (no_inv_pair h rfl).elim
    all_goals try dsimp only at h
    all_goals injection h with hh1 hh2; exact hh2.symm

end AcquireGame

/-- C4: `handle_player_response` is atomic on failure: whenever the call
returns `Err` (a response shape mismatch or a rule violation), the whole
engine state — board, players (cash, holdings, hands), bank stock pool,
tile pool, phase and outstanding request — is exactly the input state.  In
particular (second conjunct), a `Buy(Tower)` response with
`available_stock[Tower] == 0` returns the `InvalidMove` error and leaves the
state unchanged, with the same request pending. -/
theorem acquire_c4 :
    (∀ (choose : List Tile → Option Tile) (g : AcquireGame) (r : AcquireResponse)
        (m : String) (g1 : AcquireGame),
      AcquireGame.handle_player_response choose g r = (Outc.invalid m, g1) → g1 = g) ∧
    AcquireGame.handle_player_response headChoose gBuyEmpty
        (AcquireResponse.BuyStock (BuyStockChoice.Buy Hotel.Tower)) =
      (Outc.invalid ("No Tower stock available to buy"), gBuyEmpty) :=
  ⟨AcquireGame.inv_handle_player_response, by decide⟩

/-- Witness for C4: the zero-stock buy scenario discharges the hypothesis of
the universal part at a concrete state. -/
theorem acquire_c4_witness :
    AcquireGame.handle_player_response headChoose gBuyEmpty
        (AcquireResponse.BuyStock (BuyStockChoice.Buy Hotel.Tower)) =
      (Outc.invalid ("No Tower stock available to buy"),
        (AcquireGame.handle_player_response headChoose gBuyEmpty
          (AcquireResponse.BuyStock (BuyStockChoice.Buy Hotel.Tower))).2) ∧
    (AcquireGame.handle_player_response headChoose gBuyEmpty
        (AcquireResponse.BuyStock (BuyStockChoice.Buy Hotel.Tower))).2 = gBuyEmpty :=
  ⟨by decide,
   acquire_c4.1 headChoose gBuyEmpty (AcquireResponse.BuyStock (BuyStockChoice.Buy Hotel.Tower))
     ("No Tower stock available to buy")
     (AcquireGame.handle_player_response headChoose gBuyEmpty
       (AcquireResponse.BuyStock (BuyStockChoice.Buy Hotel.Tower))).2
     (by decide)⟩

/-! ## C10: stock conservation -/

theorem sum_map_set (f : Player → Nat) :
    ∀ (l : List Player) (i : Nat) (p : Player) (hi : i < l.length),
      (((l.set i p).map f).sum + f (l.get ⟨i, hi⟩) = (l.map f).sum + f p) := by
  intro l
  induction l with
  | nil => intro i p hi; simp at hi
  | cons a l ih =>
    intro i p hi
    cases i with
    | zero =>
      have hget0 : (a :: l).get ⟨0, hi⟩ = a := rfl
      simp only [List.set_cons_zero, List.map_cons, List.sum_cons, hget0]
      omega
    | succ j =>
      have hj : j < l.length := by simpa using hi
      have hrec := ih j p hj
      have hgets : (a :: l).get ⟨j + 1, hi⟩ = l.get ⟨j, hj⟩ := rfl
      simp only [List.set_cons_succ, List.map_cons, List.sum_cons, hgets]
      omega

theorem get?_eq_get {l : List Player} {i : Nat} {p : Player} (h : l.get? i = some p) :
    ∃ hi : i < l.length, l.get ⟨i, hi⟩ = p := by
  have hlen : i < l.length := List.get?_eq_some.mp h |>.1
  exact ⟨hlen, by have := List.get?_eq_some.mp h; exact this.2⟩

namespace AcquireGame

/-- Replacing a player by one with the same holdings keeps stock sums. -/
theorem sum_stocks_setPlayer (g : AcquireGame) (i : Nat) (p p' : Player) (h : Hotel)
    (hp : g.players.get? i = some p) (hst : p'.stocks h = p.stocks h) :
    ((g.players.set i p').map fun q => q.stocks h).sum
      = ((g.players.map fun q => q.stocks h)).sum := by
  obtain ⟨hi, hget⟩ := get?_eq_get hp
  have hsum := sum_map_set (fun q => q.stocks h) g.players i p' hi
  rw [hget] at hsum
  omega

theorem st_take_random (choose : List Tile → Option Tile) (g : AcquireGame) (h : Hotel) :
    stockTotal (take_random_tile choose g).2 h = stockTotal g h := by
  unfold take_random_tile
  cases choose g.available_tiles <;> rfl

theorem st_give_player_tile (choose : List Tile → Option Tile) (player : Nat)
    (g : AcquireGame) (h : Hotel) :
    stockTotal (give_player_tile choose player g).2 h = stockTotal g h := by
  unfold give_player_tile
  rcases hTR : take_random_tile choose g with ⟨o, g1⟩
  have hst := st_take_random choose g h
  rw [hTR] at hst
  cases o with
  | ok t =>
    dsimp only
    cases hp : g1.players.get? player with
    | none => exact hst
    | some p =>
      rw [← hst]
      unfold stockTotal setPlayer
      dsimp only
      rw [sum_stocks_setPlayer g1 player p { p with tiles := p.tiles ++ [t] } h hp rfl]
  | invalid m => exact hst
  | panicked => exact hst

theorem st_end_turn (choose : List Tile → Option Tile) (player : Nat)
    (g : AcquireGame) (h : Hotel) :
    stockTotal (end_turn choose player g).2 h = stockTotal g h := by
  unfold end_turn
  rcases hgt : give_player_tile choose player g with ⟨o, g1⟩
  have hst := st_give_player_tile choose player g h
  rw [hgt] at hst
  cases o with
  | ok a =>
    dsimp only
    split_ifs
    · exact hst
    · exact hst
  | invalid m => exact hst
  | panicked => exact hst

theorem st_give_player_stock (hotel : Hotel) (player shares : Nat)
    (g : AcquireGame) (h : Hotel) :
    stockTotal (give_player_stock hotel player shares g).2 h = stockTotal g h := by
  unfold give_player_stock
  split_ifs with havail
  · rfl
  · cases hp : g.players.get? player with
    | none => rfl
    | some p =>
      dsimp only
      unfold stockTotal setPlayer
      dsimp only
      obtain ⟨hi, hget⟩ := get?_eq_get hp
      have hsum := sum_map_set (fun q => q.stocks h) g.players player
        { p with stocks := Function.update p.stocks hotel (p.stocks hotel + shares) } hi
      rw [hget] at hsum
      try simp only at hsum
      by_cases hh : h = hotel
      · subst hh
        simp only [Function.update_same] at hsum ⊢
        omega
      · simp only [Function.update_noteq hh] at hsum ⊢
        omega

theorem st_sell_off (hotel : Hotel) (player shares : Nat) (g : AcquireGame) (h : Hotel) :
    stockTotal (sell_off_players_stock hotel player shares g).2 h = stockTotal g h := by
  unfold sell_off_players_stock
  cases hp : g.players.get? player with
  | none => rfl
  | some p =>
    dsimp only
    split_ifs with hlack
    · rfl
    · unfold stockTotal setPlayer
      dsimp only
      obtain ⟨hi, hget⟩ := get?_eq_get hp
      have hsum := sum_map_set (fun q => q.stocks h) g.players player
        { p with cash := p.cash + hotel.get_stock_value (g.board.get_hotel_chain_size hotel) * shares
                 stocks := Function.update p.stocks hotel (p.stocks hotel - shares) } hi
      rw [hget] at hsum
      try simp only at hsum
      by_cases hh : h = hotel
      · subst hh
        simp only [Function.update_same] at hsum ⊢
        omega
      · simp only [Function.update_noteq hh] at hsum ⊢
        omega

theorem st_take_back (hotel : Hotel) (player shares : Nat) (g : AcquireGame) (h : Hotel) :
    stockTotal (take_back_players_stock hotel player shares g).2 h = stockTotal g h := by
  unfold take_back_players_stock
  cases hp : g.players.get? player with
  | none => rfl
  | some p =>
    dsimp only
    split_ifs with hlack
    · rfl
    · unfold stockTotal setPlayer
      dsimp only
      obtain ⟨hi, hget⟩ := get?_eq_get hp
      have hsum := sum_map_set (fun q => q.stocks h) g.players player
        { p with stocks := Function.update p.stocks hotel (p.stocks hotel - shares) } hi
      rw [hget] at hsum
      try simp only at hsum
      by_cases hh : h = hotel
      · subst hh
        simp only [Function.update_same] at hsum ⊢
        omega
      · simp only [Function.update_noteq hh] at hsum ⊢
        omega

theorem st_foldl (f : AcquireGame → Int → AcquireGame)
    (hf : ∀ (g : AcquireGame) (idx : Int) (h : Hotel),
      stockTotal (f g idx) h = stockTotal g h) :
    ∀ (l : List Int) (g : AcquireGame) (h : Hotel),
      stockTotal (l.foldl f g) h = stockTotal g h := by
  intro l
  induction l with
  | nil => intro g h; rfl
  | cons idx rest ih =>
    intro g h
    simp only [List.foldl_cons]
    rw [ih (f g idx) h, hf g idx h]

theorem st_distribute (indices : List Int) (count total : Nat) (g : AcquireGame) (h : Hotel) :
    stockTotal (distribute_payouts_array indices count total g) h = stockTotal g h := by
  unfold distribute_payouts_array
  split_ifs
  · rfl
  · refine st_foldl _ ?_ (indices.take count) g h
    intro g2 idx h2
    split_ifs
    · cases hp : g2.players.get? idx.toNat with
      | none => rfl
      | some p =>
        dsimp only
        unfold stockTotal setPlayer
        dsimp only
        rw [sum_stocks_setPlayer g2 idx.toNat p
          { p with cash := p.cash + total / count } h2 hp rfl]
    · rfl

theorem st_pay_out (defunct : Hotel) (g : AcquireGame) (h : Hotel) :
    stockTotal (pay_out_defunct_chain defunct g).2 h = stockTotal g h := by
  unfold pay_out_defunct_chain
  dsimp only
  cases hcl : classify_go defunct (max_second_scan defunct g.players).1
      (max_second_scan defunct g.players).2 g.players 0
      (List.replicate 6 (-1)) (List.replicate 6 (-1)) 0 0 with
  | none => rfl
  | some q =>
    obtain ⟨majI, minI, majc, minc⟩ := q
    dsimp only
    split_ifs <;> simp only [st_distribute]

theorem st_begin_disposal (defunct : Hotel) (g : AcquireGame) (h : Hotel) :
    stockTotal (begin_stock_disposal defunct g).2 h = stockTotal g h := by
  unfold begin_stock_disposal
  cases g.current_state <;> rfl

theorem st_handle_defunct (defunct : Hotel) (g : AcquireGame) (h : Hotel) :
    stockTotal (handle_defunct_hotel defunct g).2 h = stockTotal g h := by
  unfold handle_defunct_hotel
  cases hs : g.current_state <;> try rfl
  next ms =>
    dsimp only
    rcases hpo : pay_out_defunct_chain defunct g with ⟨o, g1⟩
    have hst := st_pay_out defunct g h
    rw [hpo] at hst
    cases o with
    | ok a => rw [st_begin_disposal defunct g1 h]; exact hst
    | invalid m => exact hst
    | panicked => exact hst

theorem st_determine_next (g : AcquireGame) (h : Hotel) :
    stockTotal (determine_next_defunct_hotel g).2 h = stockTotal g h := by
  unfold determine_next_defunct_hotel
  cases hs : g.current_state <;> try rfl
  next ms =>
    dsimp only
    cases ms.get_largest_defunct_chains g.board with
    | none => rfl
    | some l =>
      match l with
      | [] => rfl
      | [d] => exact st_handle_defunct d g h
      | d1 :: d2 :: rest => rfl

theorem st_start_buy (choose : List Tile → Option Tile) (player : Nat)
    (g : AcquireGame) (h : Hotel) :
    stockTotal (start_buy_stock_phase choose player g).2 h = stockTotal g h := by
  unfold start_buy_stock_phase
  dsimp only
  split_ifs
  · exact st_end_turn choose player g h
  · exact st_end_turn choose player g h
  · rfl

theorem st_start_merge (maker : Nat) (survivor : Hotel) (g : AcquireGame) (h : Hotel) :
    stockTotal (start_merge_phase maker survivor g).2 h = stockTotal g h := by
  unfold start_merge_phase
  cases hc : g.board.get_conflict_on_board with
  | none => rfl
  | some rct =>
    obtain ⟨row, col, t⟩ := rct
    cases t with
    | NewChain => rfl
    | Merge n => exact st_determine_next _ h

theorem st_continue_merge (choose : List Tile → Option Tile) (maker : Nat)
    (survivor : Hotel) (g : AcquireGame) (h : Hotel) :
    stockTotal (continue_merge_phase choose maker survivor g).2 h = stockTotal g h := by
  unfold continue_merge_phase
  cases hc : g.board.get_conflict_on_board with
  | none => rfl
  | some rct =>
    obtain ⟨row, col, t⟩ := rct
    cases t with
    | NewChain => rfl
    | Merge n =>
      dsimp only
      split_ifs
      · rcases hrc : g.board.resolve_conflict survivor with ⟨o, b1⟩
        cases o with
        | ok a => exact st_start_buy choose maker _ h
        | invalid m => exact st_start_buy choose maker _ h
        | panicked => rfl
      · exact st_determine_next _ h

theorem st_finish_dispose (choose : List Tile → Option Tile) (defunct : Hotel)
    (maker : Nat) (survivor : Hotel) (next_phase : Bool) (g : AcquireGame) (h : Hotel) :
    stockTotal (finish_dispose choose defunct maker survivor next_phase g).2 h
      = stockTotal g h := by
  unfold finish_dispose
  split_ifs
  · exact st_continue_merge choose maker survivor _ h
  · rfl

theorem st_give_tiles_loop (choose : List Tile → Option Tile) :
    ∀ (l : List Nat) (g : AcquireGame) (h : Hotel),
      stockTotal (give_tiles_loop choose l g).2 h = stockTotal g h := by
  intro l
  induction l with
  | nil => intro g h; rfl
  | cons i rest ih =>
    intro g h
    unfold give_tiles_loop
    rcases hgt : give_player_tile choose i g with ⟨o, g1⟩
    have hst := st_give_player_tile choose i g h
    rw [hgt] at hst
    cases o with
    | ok a => rw [ih g1 h]; exact hst
    | invalid m => exact hst
    | panicked => exact hst

theorem st_game_start_complete (choose : List Tile → Option Tile)
    (g : AcquireGame) (h : Hotel) :
    stockTotal (handle_game_start_complete choose g).2 h = stockTotal g h := by
  unfold handle_game_start_complete
  cases hs : g.current_state <;> try rfl
  next gss =>
    dsimp only
    rcases hl : give_tiles_loop choose
        ((List.range 6).flatMap fun _ => List.range g.players.length) g with ⟨o, g1⟩
    have hst := st_give_tiles_loop choose
      ((List.range 6).flatMap fun _ => List.range g.players.length) g h
    rw [hl] at hst
    cases o with
    | ok a => exact hst
    | invalid m => exact hst
    | panicked => exact hst

theorem st_starting_tile (choose : List Tile → Option Tile) (tile : Tile) (player : Nat)
    (g : AcquireGame) (h : Hotel) :
    stockTotal (handle_starting_tile_response choose tile player g).2 h = stockTotal g h := by
  unfold handle_starting_tile_response
  cases hs : g.current_state
  case GameStart gss =>
    dsimp only
    split_ifs <;>
      first
        | rfl
        | exact st_game_start_complete choose _ h
  all_goals dsimp only
  all_goals split_ifs <;> rfl

theorem st_remove_tile (tile : Tile) (player : Nat) (g : AcquireGame) (h : Hotel) :
    stockTotal (remove_tile_from_hand tile player g).2 h = stockTotal g h := by
  unfold remove_tile_from_hand
  cases hp : g.players.get? player with
  | none => rfl
  | some p =>
    dsimp only
    unfold stockTotal setPlayer
    dsimp only
    rw [sum_stocks_setPlayer g player p
      { p with tiles := p.tiles.filter fun t => decide (t ≠ tile) } h hp rfl]

theorem st_setPlayer_cash (g : AcquireGame) (i : Nat) (p : Player) (newCash : Nat) (h : Hotel)
    (hp : g.players.get? i = some p) :
    stockTotal (setPlayer g i { p with cash := newCash }) h = stockTotal g h := by
  unfold stockTotal setPlayer
  dsimp only
  rw [sum_stocks_setPlayer g i p { p with cash := newCash } h hp rfl]

theorem st_handle_tile (choose : List Tile → Option Tile) (tile : Tile) (player : Nat)
    (g : AcquireGame) (h : Hotel) :
    stockTotal (handle_tile_response choose tile player g).2 h = stockTotal g h := by
  unfold handle_tile_response
  split
  · rfl
  · split
    · rfl
    · split
      · rfl
      · next pl hp =>
        split
        · rfl
        · dsimp only
          rcases hpt : g.board.place_tile tile.row tile.col with ⟨res, b2⟩
          cases res with
          | CellNotPlayable reason => rfl
          | Success =>
            rcases hsb : start_buy_stock_phase choose player { g with board := b2 } with ⟨o, g2⟩
            have hst := st_start_buy choose player { g with board := b2 } h
            rw [hsb] at hst
            cases o with
            | ok a =>
              dsimp only
              rw [st_remove_tile tile player g2 h]
              exact hst
            | invalid m => exact hst
            | panicked => exact hst
          | ConflictCreated ct =>
            cases ct with
            | NewChain =>
              dsimp only
              rw [st_remove_tile tile player
                { g with board := b2, current_request := .ChooseNewChain player } h]
              rfl
            | Merge n =>
              dsimp only
              cases hacc : ({ g with board := b2 } : AcquireGame).board.acceptable_conflict_resolutions with
              | none => rfl
              | some largest =>
                dsimp only
                cases largest with
                | nil =>
                  dsimp only
                  rw [st_remove_tile tile player
                    { g with board := b2, current_request := .ChooseMergerSurvivor player } h]
                  rfl
                | cons s1 rest =>
                  cases rest with
                  | nil =>
                    dsimp only
                    rcases hsm : start_merge_phase player s1 { g with board := b2 } with ⟨o, g2⟩
                    have hst := st_start_merge player s1 { g with board := b2 } h
                    rw [hsm] at hst
                    cases o with
                    | ok a =>
                      dsimp only
                      rw [st_remove_tile tile player g2 h]
                      exact hst
                    | invalid m => exact hst
                    | panicked => exact hst
                  | cons s2 rest2 =>
                    dsimp only
                    rw [st_remove_tile tile player
                      { g with board := b2, current_request := .ChooseMergerSurvivor player } h]
                    rfl

theorem st_handle_new_chain (choose : List Tile → Option Tile) (hotel : Hotel) (player : Nat)
    (g : AcquireGame) (h : Hotel) :
    stockTotal (handle_new_chain_response choose hotel player g).2 h = stockTotal g h := by
  unfold handle_new_chain_response
  split
  · rfl
  · rcases hrc : g.board.resolve_conflict hotel with ⟨o, b1⟩
    cases o with
    | panicked => rfl
    | ok a =>
      dsimp only
      split
      · rcases hgs : give_player_stock hotel player 1 { g with board := b1 } with ⟨o2, g2⟩
        have hst := st_give_player_stock hotel player 1 { g with board := b1 } h
        rw [hgs] at hst
        cases o2 with
        | ok a2 =>
          dsimp only
          rw [st_start_buy choose player g2 h]
          exact hst
        | invalid m2 => exact hst
        | panicked => exact hst
      · rw [st_start_buy choose player { g with board := b1 } h]
        rfl
    | invalid m0 =>
      dsimp only
      split
      · rcases hgs : give_player_stock hotel player 1 { g with board := b1 } with ⟨o2, g2⟩
        have hst := st_give_player_stock hotel player 1 { g with board := b1 } h
        rw [hgs] at hst
        cases o2 with
        | ok a2 =>
          dsimp only
          rw [st_start_buy choose player g2 h]
          exact hst
        | invalid m2 => exact hst
        | panicked => exact hst
      · rw [st_start_buy choose player { g with board := b1 } h]
        rfl

theorem st_handle_dispose (choose : List Tile → Option Tile) (choice : DisposeStockChoice)
    (player : Nat) (g : AcquireGame) (h : Hotel) :
    stockTotal (handle_dispose_stock_response choose choice player g).2 h = stockTotal g h := by
  unfold handle_dispose_stock_response
  cases hs : g.current_state
  case DisposeStock ds =>
    dsimp only
    split
    · rfl
    · next remaining heq =>
      split
      · rfl
      · next hrem =>
        cases choice <;> dsimp only
        case Keep =>
          split
          · rfl
          · split
            · next h0 => exact absurd h0 (by decide)
            · split
              · rfl
              · next ds1 np heq2 =>
                rw [st_finish_dispose]
                rfl
        case KeepAll =>
          split
          · next h0 => exact absurd h0 (Nat.lt_irrefl _)
          · split
            · rfl
            · next ds1 np heq2 =>
              rw [st_finish_dispose]
              rfl
        case Sell =>
          split
          · rfl
          · split
            · next h0 => exact absurd h0 (by decide)
            · split
              · rfl
              · next ds1 np heq2 =>
                split
                · next u g2 heq3 =>
                  have e3 := congrArg (fun y => stockTotal y.2 h) heq3
                  dsimp only at e3
                  rw [st_sell_off] at e3
                  rw [st_finish_dispose]
                  exact e3.symm
                · next x hne =>
                  rw [st_sell_off]
                  rfl
        case SellAll =>
          split
          · next h0 => exact absurd h0 (Nat.lt_irrefl _)
          · split
            · rfl
            · next ds1 np heq2 =>
              split
              · next u g2 heq3 =>
                have e3 := congrArg (fun y => stockTotal y.2 h) heq3
                dsimp only at e3
                rw [st_sell_off] at e3
                rw [st_finish_dispose]
                exact e3.symm
              · next x hne =>
                rw [st_sell_off]
                rfl
        case Trade =>
          split
          · rfl
          · split
            · next h0 => exact absurd h0 (by decide)
            · split
              · rfl
              · split
                · rfl
                · next ds1 np heq2 =>
                  split
                  · next u g2 heq3 =>
                    have e3 := congrArg (fun y => stockTotal y.2 h) heq3
                    dsimp only at e3
                    rw [st_give_player_stock] at e3
                    split
                    · next u2 g3 heq4 =>
                      have e4 := congrArg (fun y => stockTotal y.2 h) heq4
                      dsimp only at e4
                      rw [st_take_back] at e4
                      rw [st_finish_dispose, ← e4, ← e3]
                      rfl
                    · next x hne4 =>
                      rw [st_take_back, ← e3]
                      rfl
                  · next x hne =>
                    rw [st_give_player_stock]
                    rfl
        case TradeAll =>
          split
          · next h0 => exact absurd h0 (Nat.not_lt.mpr (Nat.div_mul_le_self _ _))
          · split
            · rfl
            · split
              · rfl
              · split
                · rfl
                · next ds1 np heq2 =>
                  split
                  · next u g2 heq3 =>
                    have e3 := congrArg (fun y => stockTotal y.2 h) heq3
                    dsimp only at e3
                    rw [st_give_player_stock] at e3
                    split
                    · next u2 g3 heq4 =>
                      have e4 := congrArg (fun y => stockTotal y.2 h) heq4
                      dsimp only at e4
                      rw [st_take_back] at e4
                      rw [st_finish_dispose, ← e4, ← e3]
                      rfl
                    · next x hne4 =>
                      rw [st_take_back, ← e3]
                      rfl
                  · next x hne =>
                    rw [st_give_player_stock]
                    rfl
  all_goals rfl

theorem st_handle_buy (choose : List Tile → Option Tile) (choice : BuyStockChoice)
    (g : AcquireGame) (h : Hotel) :
    stockTotal (handle_buy_stock_response choose choice g).2 h = stockTotal g h := by
  unfold handle_buy_stock_response
  cases hs : g.current_state
  case BuyStock bs =>
    dsimp only
    cases choice with
    | Pass => exact st_end_turn choose bs.player g h
    | Buy hotel =>
      dsimp only
      split
      · rfl
      · split
        · rfl
        · next p hp =>
          try dsimp only
          split
          · rfl
          · split
            · rfl
            · split
              · rfl
              · split
                · next u g3 heq3 =>
                  have e3 := congrArg (fun y => stockTotal y.2 h) heq3
                  dsimp only at e3
                  rw [st_give_player_stock] at e3
                  rw [st_setPlayer_cash] at e3
                  · split
                    · rw [st_end_turn]
                      exact e3.symm
                    · exact e3.symm
                  · exact hp
                · next x hne =>
                  rw [st_give_player_stock, st_setPlayer_cash]
                  · rfl
                  · exact hp
  all_goals rfl

theorem st_handle_player_response (choose : List Tile → Option Tile)
    (g : AcquireGame) (r : AcquireResponse) (h : Hotel) :
    stockTotal (handle_player_response choose g r).2 h = stockTotal g h := by
  unfold handle_player_response
  cases hq : g.current_request
  case PlayStartingTile player =>
    cases r <;> try rfl
    case StartingTile =>
      dsimp only
      rcases ht : take_random_tile choose g with ⟨o, g1⟩
      have hst := st_take_random choose g h
      rw [ht] at hst
      cases o with
      | ok tile =>
        dsimp only
        rw [st_starting_tile]
        exact hst
      | invalid m => exact hst
      | panicked => exact hst
  case PlayTile player =>
    cases r <;> try rfl
    case Tile tile => exact st_handle_tile choose tile player g h
  case ChooseNewChain player =>
    cases r <;> try rfl
    case NewChain hotel => exact st_handle_new_chain choose hotel player g h
  case ChooseMergerSurvivor player =>
    cases r <;> try rfl
    case MergerSurvivor hotel => exact st_start_merge player hotel g h
  case ChooseDefunctChainToResolve player =>
    cases r <;> try rfl
    case DefunctChainToResolve hotel => exact st_handle_defunct hotel g h
  case DisposeStock =>
    cases r <;> try rfl
    case DisposeStock player choice => exact st_handle_dispose choose choice player g h
  case BuyStock x =>
    cases r <;> try rfl
    case BuyStock choice => exact st_handle_buy choose choice g h
  case EndGame player =>
    cases r <;> try rfl

end AcquireGame

/-- C10: stock conservation — for every hotel chain, the bank pool plus the
sum over all players of their holdings in that chain equals the per-chain
cap `MAX_STOCK_PER_HOTEL` at game creation, and every
`handle_player_response` call, successful or failed, preserves that total
(issue, buy, sell, trade, founding bonus and payout never create or destroy
shares). -/
theorem acquire_c10 :
    (∀ (n : Nat) (h : Hotel), stockTotal (AcquireGame.new n) h = MAX_STOCK_PER_HOTEL) ∧
    (∀ (choose : List Tile → Option Tile) (g : AcquireGame) (r : AcquireResponse) (h : Hotel),
      stockTotal (AcquireGame.handle_player_response choose g r).2 h = stockTotal g h) := by
  constructor
  · intro n h
    unfold stockTotal AcquireGame.new
    dsimp only
    rw [List.map_map]
    have hz : ((List.range n).map ((fun p => p.stocks h) ∘ fun i =>
        Player.new ("Player " ++ toString (i + 1)))).sum = 0 := by
      apply List.sum_eq_zero
      intro x hx
      rw [List.mem_map] at hx
      obtain ⟨i, hi, hfx⟩ := hx
      exact hfx.symm
    rw [hz]
    rfl
  · intro choose g r h
    exact AcquireGame.st_handle_player_response choose g r h
